import Mathlib

/-!
Calendar engine of `Lab7/c_files/calendar.c`.

A shallow embedding of the day-of-week calculator, the month navigator, the
month grid renderer and the flat-file note store, followed by theorems about
them.

Conventions of the embedding.

* A C `int` is an `Int`.  C's `/` and `%` truncate toward zero, so they are
  `Int.tdiv` and `Int.tmod`.  The arithmetic is exact: the embedding gives the
  value C computes whenever no intermediate result leaves the range of `int`
  (C leaves the other cases undefined).  The day number is also given on
  32-bit integers, `getDayNumber32`, with every arithmetic result wrapped into
  the range of `int` as the compiled program does.
* `printf`/`puts` append one `Chunk` per call to the output kept in `World`.
* `note.dat` is a list of `Remainder` records; stdio calls that C leaves
  undefined (a null stream, a stream closed twice) stop the run with a `Fault`.
-/

namespace Calendar

/-! ## Leap years and month lengths -/

/-- Function `check_leapYear` (calendar.c 17-21). -/
def check_leapYear (year : Int) : Int :=
  if year.tmod 400 == 0 || (year.tmod 100 != 0 && year.tmod 4 == 0) then 1 else 0

/-- Function `getNumberOfDays` (calendar.c 43-62). -/
def getNumberOfDays (month year : Int) : Int :=
  match month with
  | 1 => 31
  | 2 => if check_leapYear year == 1 then 29 else 28
  | 3 => 31
  | 4 => 30
  | 5 => 31
  | 6 => 30
  | 7 => 31
  | 8 => 31
  | 9 => 30
  | 10 => 31
  | 11 => 30
  | 12 => 31
  | _ => -1

/-- Function `getName` (calendar.c 64-75). -/
def getName (day : Int) : String :=
  match day with
  | 0 => "Sunday"
  | 1 => "Monday"
  | 2 => "Tuesday"
  | 3 => "Wednesday"
  | 4 => "Thursday"
  | 5 => "Friday"
  | 6 => "Saturday"
  | _ => "Error in getName() module.Invalid argument passed"

/-! ## Day number -/

/-- The `while(year >= 100)` loop of `getDayNumber` (calendar.c 101-104),
from the state `(res, year)` to the state at loop exit. -/
def centuryLoop (res year : Int) : Int × Int :=
  if 100 ≤ year then centuryLoop (res + 5) (year - 100) else (res, year)
termination_by year.toNat
decreasing_by omega

/-- The `for(t1 = 1; t1 < mon; t1++)` loop of `getDayNumber`
(calendar.c 115-117), from the state `(t1, t2)` to the final `t2`. -/
def monthLoop (mon y t1 t2 : Int) : Int :=
  if t1 < mon then monthLoop mon y (t1 + 1) (t2 + getNumberOfDays t1 y) else t2
termination_by (mon - t1).toNat
decreasing_by omega

/-- Function `getDayNumber` (calendar.c 97-126) in exact arithmetic.  The C
variables are renamed where they are reassigned: `year0` is `year` after the
subtraction, `year1` after the loop.  It is the value the 32-bit computation
`getDayNumber32` gives whenever no intermediate result leaves the range of
`int`. -/
def getDayNumber (day mon year : Int) : Int :=
  let y := year
  let year0 := year - 1600
  let (res, year1) := centuryLoop 0 year0
  let res := res.tmod 7
  let t1 := (year1 - 1).tdiv 4
  let t2 := (year1 - 1) - t1
  let t1 := t1 * 2 + t2
  let t1 := t1.tmod 7
  let res := res + t1
  let res := res.tmod 7
  let t2 := monthLoop mon y 1 0
  let t2 := t2 + day
  let t2 := t2.tmod 7
  let res := res + t2
  let res := res.tmod 7
  let res := if 2000 < y then res + 1 else res
  res.tmod 7

/-- The value a 32-bit `int` holds after an arithmetic result `n`: `n` wrapped
into -2147483648 .. 2147483647. -/
def wrap32 (n : Int) : Int :=
  (n + 2147483648) % 4294967296 - 2147483648

/-- The `while(year >= 100)` loop of `getDayNumber` (calendar.c 101-104) on
32-bit integers. -/
def centuryLoop32 (res year : Int) : Int × Int :=
  if 100 ≤ year then centuryLoop32 (wrap32 (res + 5)) (wrap32 (year - 100)) else (res, year)
termination_by year.toNat
decreasing_by
  simp only [wrap32]
  omega

/-- The `for(t1 = 1; t1 < mon; t1++)` loop of `getDayNumber` (calendar.c 115-117)
on 32-bit integers.  The increment `t1++` runs only while `t1 < mon`, so it
cannot leave the range of `int`. -/
def monthLoop32 (mon y t1 t2 : Int) : Int :=
  if t1 < mon then monthLoop32 mon y (t1 + 1) (wrap32 (t2 + getNumberOfDays t1 y)) else t2
termination_by (mon - t1).toNat
decreasing_by omega

/-- Function `getDayNumber` (calendar.c 97-126) on 32-bit integers: every sum,
difference and product is wrapped into the range of `int`, as the compiled
program computes it; `/` and `%` are C's truncating division and remainder. -/
def getDayNumber32 (day mon year : Int) : Int :=
  let y := year
  let year0 := wrap32 (year - 1600)
  let (res, year1) := centuryLoop32 0 year0
  let res := res.tmod 7
  let t1 := (wrap32 (year1 - 1)).tdiv 4
  let t2 := wrap32 (wrap32 (year1 - 1) - t1)
  let t1 := wrap32 (wrap32 (t1 * 2) + t2)
  let t1 := t1.tmod 7
  let res := wrap32 (res + t1)
  let res := res.tmod 7
  let t2 := monthLoop32 mon y 1 0
  let t2 := wrap32 (t2 + day)
  let t2 := t2.tmod 7
  let res := wrap32 (res + t2)
  let res := res.tmod 7
  let res := if 2000 < y then wrap32 (res + 1) else res
  res.tmod 7

/-- Function `getDay` (calendar.c 128-143). -/
def getDay (dd mm yy : Int) : String :=
  if !(1 ≤ mm && mm ≤ 12) then "Invalid month value"
  else if !(1 ≤ dd && dd ≤ getNumberOfDays mm yy) then "Invalid date"
  else if 1600 ≤ yy then
    let day := getDayNumber dd mm yy
    let day := day.tmod 7
    getName day
  else "Please give year more than 1600"

/-! ## Output, the note store and the program state -/

/-- One record of `note.dat`: `struct Remainder` (calendar.c 10-14).  `note` is
the 50-byte text field. -/
structure Remainder where
  dd : Int
  mm : Int
  note : List Char
deriving DecidableEq, Repr

/-- The NUL byte that ends a C string. -/
def NUL : Char := Char.ofNat 0

/-- The characters `%s` prints from a text field: those before the first NUL. -/
def cstr (note : List Char) : List Char :=
  note.takeWhile (fun c => c != NUL)

/-- One call of `printf` or `puts`, by format. -/
inductive Chunk where
  /-- A format without conversions; `puts` adds its newline. -/
  | lit (s : String)
  /-- Call `printf(" , %d", yy)` in `print_date`. -/
  | year (yy : Int)
  /-- Call `printf("%02d", d)`: the cell of day 1. -/
  | day2 (d : Int)
  /-- Call `printf("%02d ", d)`: the cell of a later day. -/
  | day2sp (d : Int)
  /-- Call `printf("Note %d Day = %d: %s\n", i, dd, note)` in `showNote`. -/
  | noteLine (i dd : Int) (text : List Char)
deriving DecidableEq, Repr

/-- Conversion `%d`. -/
def fmtD (n : Int) : String := toString n

/-- Conversion `%02d`: at least two characters, padded with a zero. -/
def fmt02d (n : Int) : String :=
  if 0 ≤ n ∧ n < 10 then "0" ++ toString n else toString n

/-- The characters a chunk writes to the console. -/
def Chunk.render : Chunk → String
  | .lit s => s
  | .year yy => " , " ++ fmtD yy
  | .day2 d => fmt02d d
  | .day2sp d => fmt02d d ++ " "
  | .noteLine i dd text =>
    "Note " ++ fmtD i ++ " Day = " ++ fmtD dd ++ ": " ++ String.mk text ++ "\n"

/-- The console text of a sequence of chunks. -/
def renderAll (cs : List Chunk) : String :=
  String.join (cs.map Chunk.render)

/-- Stdio calls whose behaviour C leaves undefined; a run stops at the first. -/
inductive Fault where
  /-- Use of `fread`, `fwrite` or `fclose` on the null stream of a failed `fopen`. -/
  | nullStream
  /-- Call of `fclose` on a stream that was closed before. -/
  | closedStream
  /-- Call of `scanf` storing a text longer than the 50 characters of `R.note`. -/
  | overflow
deriving DecidableEq, Repr

/-- The state the calendar functions read and write: the contents of
`note.dat` (`none` when it cannot be opened for reading), the global record
buffer `R`, and the console output so far. -/
structure World where
  file : Option (List Remainder)
  R : Remainder
  out : List Chunk
deriving DecidableEq, Repr

/-- Append one chunk to the console output. -/
def World.print (w : World) (c : Chunk) : World :=
  { w with out := w.out ++ [c] }

/-- A run ends normally with a value or stops at a fault, in both cases with
the state reached. -/
abbrev Run (α : Type) := Except (Fault × World) α

/-! ## Month navigator -/

/-- Function `increase_month` (calendar.c 23-29) on the values of `*mm`, `*yy`. -/
def increase_month (mm yy : Int) : Int × Int :=
  let mm := mm + 1
  if 12 < mm then
    let yy := yy + 1
    (mm - 12, yy)
  else (mm, yy)

/-- Function `decrease_month` (calendar.c 31-41) on the values of `*mm`, `*yy`; the
result is the pair left in `*mm`, `*yy` and the state after any `printf`. -/
def decrease_month (mm yy : Int) (w : World) : (Int × Int) × World :=
  let mm := mm - 1
  if mm < 1 then
    let yy := yy - 1
    if yy < 1600 then
      ((mm, yy), w.print (.lit "No record available"))
    else ((mm + 12, yy), w)
  else ((mm, yy), w)

/-! ## Note store -/

/-- The `while(fread(&R,sizeof(R),1,fp) == 1)` loop of `checkNote`
(calendar.c 151-158) over the records not yet read; each `fread` overwrites
`R`.  Both exits close the stream. -/
def checkNoteScan (dd mm : Int) : List Remainder → World → Int × World
  | [], w => (0, w)
  | r :: rest, w =>
    let w := { w with R := r }
    if r.dd == dd && r.mm == mm then (1, w) else checkNoteScan dd mm rest w

/-- Function `checkNote` (calendar.c 145-159).  When `fopen` fails the message is
printed and the run stops at `fread` on the null stream. -/
def checkNote (dd mm : Int) (w : World) : Run (Int × World) :=
  match w.file with
  | none => .error (.nullStream, w.print (.lit "Error in Opening the file"))
  | some recs => .ok (checkNoteScan dd mm recs w)

/-- What `AddNote` meets outside the program: whether `fopen("note.dat","ab+")`
yields a stream, the two integers and the text the `scanf` calls convert, and
whether `fwrite` reports the record written. -/
structure AddNoteEnv where
  opens : Bool
  dd : Int
  mm : Int
  text : List Char
  written : Bool
deriving DecidableEq, Repr

/-- Call `scanf("%[^\n]",R.note)`: the matched characters and a NUL replace the
start of the field, the bytes after them stay; an empty match stores nothing. -/
def storeText (text note : List Char) : List Char :=
  if text = [] then note else text ++ [NUL] ++ note.drop (text.length + 1)

/-- Function `AddNote` (calendar.c 236-255).  A text of up to 50 characters,
the maximum the prompt names, is stored; the NUL of a 50-character text is the
byte after the field, a padding byte of `R`.  A successful `fwrite` adds `R` after the
records of the file; on that path the stream is closed at line 248 and again
at line 254. -/
def AddNote (env : AddNoteEnv) (w : World) : Run World :=
  let w := w.print (.lit "Enter the date(DD/MM): ")
  let w := { w with R := { w.R with dd := env.dd, mm := env.mm } }
  let w := w.print (.lit "Enter the Note(50 character max): ")
  if 50 < env.text.length then .error (.overflow, w)
  else
    let w := { w with R := { w.R with note := storeText env.text w.R.note } }
    if !env.opens then .error (.nullStream, w)
    else if env.written then
      let w := { w with file := some (w.file.getD [] ++ [w.R]) }
      let w := w.print (.lit "Note is saved sucessfully\n")
      let w := w.print (.lit "Press any key............")
      .error (.closedStream, w)
    else
      let w := w.print (.lit "Fail to save!!\n")
      let w := w.print (.lit "Press any key............")
      .ok w

/-- The `while` loop of `showNote` (calendar.c 265-271) over the records not
yet read, with the counter `i` and the flag `isFound`. -/
def showNoteScan (mm : Int) : List Remainder → Int → Int → World → Int × World
  | [], _, isFound, w => (isFound, w)
  | r :: rest, i, isFound, w =>
    let w := { w with R := r }
    if r.mm == mm then
      showNoteScan mm rest (i + 1) 1 (w.print (.noteLine (i + 1) r.dd (cstr r.note)))
    else showNoteScan mm rest i isFound w

/-- Function `showNote` (calendar.c 257-276).  When `fopen` fails the message is printed
and the run stops at `fread` on the null stream.  The stream is not closed. -/
def showNote (mm : Int) (w : World) : Run World :=
  match w.file with
  | none => .error (.nullStream, w.print (.lit "Error in opening the file"))
  | some recs =>
    let (isFound, w) := showNoteScan mm recs 0 0 w
    let w := if isFound == 0 then w.print (.lit "This Month contains no note\n") else w
    .ok (w.print (.lit "Press any key to back.......\n"))

/-! ## Month grid -/

/-- Function `print_date` (calendar.c 77-95). -/
def print_date (mm yy : Int) (w : World) : World :=
  let w := w.print (.lit "---------------------------\n")
  let w :=
    match mm with
    | 1 => w.print (.lit "January")
    | 2 => w.print (.lit "February")
    | 3 => w.print (.lit "March")
    | 4 => w.print (.lit "April")
    | 5 => w.print (.lit "May")
    | 6 => w.print (.lit "June")
    | 7 => w.print (.lit "July")
    | 8 => w.print (.lit "August")
    | 9 => w.print (.lit "September")
    | 10 => w.print (.lit "October")
    | 11 => w.print (.lit "November")
    | 12 => w.print (.lit "December")
    | _ => w
  let w := w.print (.year yy)
  w.print (.lit "\n---------------------------\n")

/-- The `switch(day)` of `printMonth` (calendar.c 178-210): the new `x` and
`cnt`, or `none` for the `default` branch. -/
def firstColumn (day x : Int) : Option (Int × Int) :=
  match day with
  | 0 => some (x, 1)
  | 1 => some (x + 4, 2)
  | 2 => some (x + 8, 3)
  | 3 => some (x + 12, 4)
  | 4 => some (x + 16, 5)
  | 5 => some (x + 20, 6)
  | 6 => some (x + 24, 7)
  | _ => none

/-- The `for(d=2;d<=nod;d++)` loop of `printMonth` (calendar.c 217-230) from
the state `(d, cnt, x)`. -/
def dayLoop (mon nod x1 : Int) (d cnt x : Int) (w : World) : Run World :=
  if d ≤ nod then
    let (w1, cnt1, x1a) :=
      if cnt.tmod 7 == 0 then (w.print (.lit "\n"), 0, x1 - 4) else (w, cnt, x)
    let x2 := x1a + 4
    let cnt2 := cnt1 + 1
    match checkNote d mon w1 with
    | .error e => .error e
    | .ok (r, w2) =>
      let w3 := if r == 1 then w2.print (.lit "*") else w2
      let w4 := w3.print (.day2sp d)
      dayLoop mon nod x1 (d + 1) cnt2 x2 w4
  else .ok w
termination_by (nod + 1 - d).toNat
decreasing_by omega

/-- Function `printMonth` (calendar.c 161-234). -/
def printMonth (mon year x y : Int) (w : World) : Run World :=
  let d : Int := 1
  let x1 := x
  let _y1 := y
  if !(1 ≤ mon && mon ≤ 12) then .ok (w.print (.lit "INVALID MONTH"))
  else if !(1600 ≤ year) then .ok (w.print (.lit "INVALID YEAR"))
  else
    let w := print_date mon year w
    let w := w.print (.lit "S   M   T   W   T   F   S   \n")
    let nod := getNumberOfDays mon year
    let day := getDayNumber d mon year
    match firstColumn day x with
    | none => .ok (w.print (.lit "INVALID DATA FROM THE getOddNumber()MODULE"))
    | some (x, cnt) =>
      match checkNote d mon w with
      | .error e => .error e
      | .ok (r, w) =>
        let w := if r == 1 then w.print (.lit "*") else w
        let w := w.print (.day2 d)
        match dayLoop mon nod x1 2 cnt x w with
        | .error e => .error e
        | .ok w =>
          let w := w.print
            (.lit "\nPress 'n' to Next, Press 'p' to Previous and 'q' to Quit\n")
          .ok (w.print
            (.lit "Red Background indicates the NOTE, Press 's' to see note: \n"))

/-- The day cells of an output, in the order printed. -/
def dayCells : List Chunk → List Int
  | [] => []
  | .day2 d :: cs => d :: dayCells cs
  | .day2sp d :: cs => d :: dayCells cs
  | _ :: cs => dayCells cs

/-! ## Definitions used to state the properties -/

/-- The day number as section 4.3 of the specification words it: century
count `c`, two-digit offset `y`, leap-day terms `t1` and `t2`, day of the year
`D` and the correction `k`, combined with truncating division and remainder. -/
def dayNumberSpec (day month year : Int) : Int :=
  let c := (year - 1600).tdiv 100
  let y := (year - 1600).tmod 100
  let t1 := (y - 1).tdiv 4
  let t2 := (y - 1) - t1
  let D := day +
    ((List.range (month - 1).toNat).map (fun i : Nat => getNumberOfDays ((i : Int) + 1) year)).sum
  let k : Int := if 2000 < year then 1 else 0
  ((((5 * c).tmod 7 + (2 * t1 + t2).tmod 7).tmod 7 + D.tmod 7).tmod 7 + k).tmod 7

/-- The days of the months of `year` before `month`: the sum at line 116. -/
def daysBefore (month year : Int) : Int :=
  ((List.range (month - 1).toNat).map
    (fun i : Nat => getNumberOfDays ((i : Int) + 1) year)).sum

/-- Whether the store holds a note for day `dd` of month `mm`. -/
def hasNote (s : List Remainder) (dd mm : Int) : Bool :=
  s.any (fun r => r.dd == dd && r.mm == mm)

/-- The record left in `R` by the scan of `checkNote`: the first match, else
the last record read, else the old contents. -/
def noteBuf (dd mm : Int) : List Remainder → Remainder → Remainder
  | [], R => R
  | r :: rest, _ => if r.dd == dd && r.mm == mm then r else noteBuf dd mm rest r

/-- The chunks the `for` loop of `printMonth` prints for `n` days from day `d`
with counter `cnt`, over the store `s`. -/
def gridRest (s : List Remainder) (mon : Int) : Nat → Int → Int → List Chunk
  | 0, _, _ => []
  | n + 1, d, cnt =>
    (if cnt.tmod 7 == 0 then [Chunk.lit "\n"] else []) ++
      (if hasNote s d mon then [Chunk.lit "*"] else []) ++ [Chunk.day2sp d] ++
      gridRest s mon n (d + 1) ((if cnt.tmod 7 == 0 then 0 else cnt) + 1)

/-- The record left in `R` by the `for` loop of `printMonth` after `n` days
from day `d`. -/
def gridBuf (s : List Remainder) (mon : Int) : Nat → Int → Remainder → Remainder
  | 0, _, R => R
  | n + 1, d, R => gridBuf s mon n (d + 1) (noteBuf d mon s R)

/-- The chunks `print_date` prints. -/
def dateChunks (mm yy : Int) : List Chunk :=
  (print_date mm yy ⟨none, ⟨0, 0, []⟩, []⟩).out

/-- The column reached after writing the characters `cs` from column `col`. -/
def columnAfter (col : Nat) (cs : List Char) : Nat :=
  cs.foldl (fun c ch => if ch = '\n' then 0 else c + 1) col

/-- The column at which the cell of day `d` starts in an output written from
column `col`: the column of the first digit the cell's `printf` writes. -/
def cellColumn (d : Int) : List Chunk → Nat → Option Nat
  | [], _ => none
  | c :: cs, col =>
    if c = .day2 d ∨ c = .day2sp d then some col
    else cellColumn d cs (columnAfter col c.render.data)

/-- The output of `printMonth` for February 2000 over an empty store. -/
def feb2000 : List Chunk :=
  [.lit "---------------------------\n", .lit "February", .year 2000,
   .lit "\n---------------------------\n", .lit "S   M   T   W   T   F   S   \n",
   .day2 1, .day2sp 2, .day2sp 3, .day2sp 4, .day2sp 5, .lit "\n",
   .day2sp 6, .day2sp 7, .day2sp 8, .day2sp 9, .day2sp 10, .day2sp 11, .day2sp 12, .lit "\n",
   .day2sp 13, .day2sp 14, .day2sp 15, .day2sp 16, .day2sp 17, .day2sp 18, .day2sp 19,
   .lit "\n",
   .day2sp 20, .day2sp 21, .day2sp 22, .day2sp 23, .day2sp 24, .day2sp 25, .day2sp 26,
   .lit "\n", .day2sp 27, .day2sp 28, .day2sp 29,
   .lit "\nPress 'n' to Next, Press 'p' to Previous and 'q' to Quit\n",
   .lit "Red Background indicates the NOTE, Press 's' to see note: \n"]

/-- The listing section 4.6 describes for month `mm`: the records of the store
whose month field is `mm`, in storage order, numbered 1, 2, ..., each with its
day and its text. -/
def listing (mm : Int) (s : List Remainder) : List Chunk :=
  ((s.filter (fun r => r.mm == mm)).enum).map
    (fun p => Chunk.noteLine ((p.1 : Int) + 1) p.2.dd (cstr p.2.note))

/-- The record left in `R` by the scan of `showNote`: the last record read,
else the old contents. -/
def lastRead (s : List Remainder) (R : Remainder) : Remainder :=
  s.getLast?.getD R

/-- The number of line breaks a chunk writes. -/
def Chunk.newlines : Chunk → Nat
  | .lit s => s.data.count '\n'
  | .year _ => 0
  | .day2 _ => 0
  | .day2sp _ => 0
  | .noteLine _ _ text => text.count '\n' + 1

/-- The line on which the cell of day `d` starts in an output written from
line `ln`. -/
def cellLine (d : Int) : List Chunk → Nat → Option Nat
  | [], _ => none
  | c :: cs, ln =>
    if c = .day2 d ∨ c = .day2sp d then some ln else cellLine d cs (ln + c.newlines)

/-- The chunks of the days 2, 3, ..., `n + 1` of a month whose first day has
weekday index `w`, as the rows-of-seven rule words them: before day `d` a line
break exactly when `(w + d - 1) mod 7 = 0`, then the marker of a note, then the
cell. -/
def rowsOfSeven (s : List Remainder) (mon w : Int) (n : Nat) : List Chunk :=
  (List.range n).flatMap (fun i : Nat =>
    (if (w + ((i : Int) + 2) - 1) % 7 = 0 then [Chunk.lit "\n"] else []) ++
      (if hasNote s ((i : Int) + 2) mon then [Chunk.lit "*"] else []) ++
      [Chunk.day2sp ((i : Int) + 2)])

/-- The chunks of a month grid built by the rows-of-seven rule: headings, day 1
with its marker, the later days, and the two closing lines. -/
def monthGrid (s : List Remainder) (mon year : Int) : List Chunk :=
  dateChunks mon year ++ [.lit "S   M   T   W   T   F   S   \n"] ++
    (if hasNote s 1 mon then [Chunk.lit "*"] else []) ++ [.day2 1] ++
    rowsOfSeven s mon (getDayNumber 1 mon year) (getNumberOfDays mon year - 1).toNat ++
    [.lit "\nPress 'n' to Next, Press 'p' to Previous and 'q' to Quit\n",
     .lit "Red Background indicates the NOTE, Press 's' to see note: \n"]

/-- The number of days of the month whose cell is on line `L` of the month
grid (lines counted from 0 at the first heading). -/
def rowCount (s : List Remainder) (mon year : Int) (L : Nat) : Nat :=
  ((Finset.Icc 1 (getNumberOfDays mon year)).filter
    (fun d => cellLine d (monthGrid s mon year) 0 = some L)).card

/-- The leap-year rule of the Gregorian calendar. -/
def gregorianLeap (y : Int) : Bool :=
  y % 400 == 0 || (y % 4 == 0 && y % 100 != 0)

/-- The number of days of a year of the proleptic Gregorian calendar. -/
def daysInYear (y : Int) : Int :=
  if gregorianLeap y then 366 else 365

/-- The number of days of a month of the proleptic Gregorian calendar. -/
def gregorianMonthLength (m y : Int) : Int :=
  if m = 2 then (if gregorianLeap y then 29 else 28)
  else if m = 4 ∨ m = 6 ∨ m = 9 ∨ m = 11 then 30
  else 31

/-- The number of days elapsed since 31 December 1600 on day `d` of month `m`
of year `y`: the whole years from 1601, the whole months of year `y`, and the
days of month `m`. -/
def daysSince1600 (d m y : Int) : Int :=
  ((List.range (y - 1601).toNat).map (fun i : Nat => daysInYear (1601 + (i : Int)))).sum +
    ((List.range (m - 1).toNat).map
      (fun i : Nat => gregorianMonthLength ((i : Int) + 1) y)).sum + d

/-- The weekday of a date of the proleptic Gregorian calendar, 0 for Sunday to
6 for Saturday, counted from Sunday 31 December 1600. -/
def trueWeekday (d m y : Int) : Int :=
  daysSince1600 d m y % 7

/-! ## Truncating remainder -/

theorem tmod_eq_zero_iff_dvd (a b : Int) : a.tmod b = 0 ↔ b ∣ a :=
  Int.dvd_iff_tmod_eq_zero.symm

theorem tmod7_of_nonneg (n : Int) (h : 0 ≤ n) : n.tmod 7 = n % 7 :=
  Int.tmod_eq_emod h (by decide)

theorem tmod7_bounds (n : Int) (h : -1 ≤ n) :
    -1 ≤ n.tmod 7 ∧ n.tmod 7 ≤ 6 ∧ (0 ≤ n → 0 ≤ n.tmod 7) := by
  by_cases h0 : 0 ≤ n
  · rw [tmod7_of_nonneg n h0]
    omega
  · have : n = -1 := by omega
    subst this
    decide

/-! ## Leap years and month lengths -/

/-- Claim C5: for every integer year, `check_leapYear` returns 1 exactly when
the year is divisible by 400, or divisible by 4 and not by 100, and returns 0
exactly when it is not; 1600, 2000 and 2024 give 1, and 1700, 1900 and 2023
give 0. -/
theorem check_leapYear_rule (y : Int) :
    (check_leapYear y = 1 ↔ (400 ∣ y ∨ (4 ∣ y ∧ ¬ 100 ∣ y))) ∧
    (check_leapYear y = 0 ↔ ¬ (400 ∣ y ∨ (4 ∣ y ∧ ¬ 100 ∣ y))) ∧
    check_leapYear 1600 = 1 ∧ check_leapYear 1700 = 0 ∧ check_leapYear 1900 = 0 ∧
    check_leapYear 2000 = 1 ∧ check_leapYear 2024 = 1 ∧ check_leapYear 2023 = 0 := by
  refine ⟨?_, ?_, by decide, by decide, by decide, by decide, by decide, by decide⟩
  · unfold check_leapYear
    simp only [← tmod_eq_zero_iff_dvd]
    by_cases h4 : y.tmod 400 = 0 <;> by_cases h1 : y.tmod 100 = 0 <;>
      by_cases h : y.tmod 4 = 0 <;> simp [h4, h1, h]
  · unfold check_leapYear
    simp only [← tmod_eq_zero_iff_dvd]
    by_cases h4 : y.tmod 400 = 0 <;> by_cases h1 : y.tmod 100 = 0 <;>
      by_cases h : y.tmod 4 = 0 <;> simp [h4, h1, h]

/-- Claim C6: for every year `y`, `getNumberOfDays m y` is 31 for the months
1, 3, 5, 7, 8, 10, 12, is 30 for the months 4, 6, 9, 11, is 29 for month 2 when
`check_leapYear y` is 1 and 28 when it is not, and is the sentinel -1 for every
`m` outside 1..12; February 2000 has 29 days, February 1900 has 28, and April
has 30 in every year. -/
theorem getNumberOfDays_table (m y : Int) :
    ((m = 1 ∨ m = 3 ∨ m = 5 ∨ m = 7 ∨ m = 8 ∨ m = 10 ∨ m = 12) → getNumberOfDays m y = 31) ∧
    ((m = 4 ∨ m = 6 ∨ m = 9 ∨ m = 11) → getNumberOfDays m y = 30) ∧
    (m = 2 → (check_leapYear y = 1 → getNumberOfDays m y = 29) ∧
      (check_leapYear y ≠ 1 → getNumberOfDays m y = 28)) ∧
    ((m < 1 ∨ 12 < m) → getNumberOfDays m y = -1) ∧
    getNumberOfDays 2 2000 = 29 ∧ getNumberOfDays 2 1900 = 28 ∧ getNumberOfDays 4 y = 30 := by
  refine ⟨?_, ?_, ?_, ?_, by decide, by decide, rfl⟩
  · rintro (h | h | h | h | h | h | h) <;> subst h <;> rfl
  · rintro (h | h | h | h) <;> subst h <;> rfl
  · rintro rfl
    constructor <;> intro h <;> simp [getNumberOfDays, h]
  · intro h
    unfold getNumberOfDays
    split <;> first | rfl | omega

theorem getNumberOfDays_ge (m y : Int) (hm : 1 ≤ m ∧ m ≤ 12) :
    28 ≤ getNumberOfDays m y ∧ getNumberOfDays m y ≤ 31 := by
  obtain ⟨h1, h12⟩ := hm
  have hmon : m = 1 ∨ m = 2 ∨ m = 3 ∨ m = 4 ∨ m = 5 ∨ m = 6 ∨ m = 7 ∨ m = 8 ∨
      m = 9 ∨ m = 10 ∨ m = 11 ∨ m = 12 := by omega
  rcases hmon with h | h | h | h | h | h | h | h | h | h | h | h <;> subst h <;>
    simp [getNumberOfDays]
  split <;> simp

/-! ## Month navigator -/

/-- Claim C1, evaluated on the code: retreating from month 1 of 1600 prints
"No record available" and leaves month 0 and year 1599 in the caller's
variables, not the month 1 and year 1600 the claim promises. -/
theorem decrease_month_at_floor (w : World) :
    decrease_month 1 1600 w = ((0, 1599), w.print (.lit "No record available")) ∧
    (decrease_month 1 1600 w).1 ≠ (1, 1600) := by
  refine ⟨rfl, ?_⟩
  show ((0, 1599) : Int × Int) ≠ (1, 1600)
  decide

/-- Claim C7: for every month 1..12 and every year above 1600, advancing one
month and then retreating one month gives back the same month and year, and
prints nothing. -/
theorem increase_then_decrease (m y : Int) (w : World) (hm : 1 ≤ m ∧ m ≤ 12)
    (hy : 1600 < y) :
    decrease_month (increase_month m y).1 (increase_month m y).2 w = ((m, y), w) := by
  unfold increase_month decrease_month
  dsimp only
  split_ifs <;> first
    | omega
    | (refine Prod.ext (Prod.ext ?_ ?_) rfl <;> dsimp only <;> omega)

/-- Witness of C7 at December 1601, the case that crosses the year. -/
theorem increase_then_decrease_witness :
    decrease_month (increase_month 12 1601).1 (increase_month 12 1601).2
        ⟨some [], ⟨0, 0, []⟩, []⟩
      = ((12, 1601), ⟨some [], ⟨0, 0, []⟩, []⟩) :=
  increase_then_decrease 12 1601 _ (by decide) (by decide)

/-! ## Day number -/

theorem centuryLoop_unfold (res year : Int) :
    centuryLoop res year =
      if 100 ≤ year then centuryLoop (res + 5) (year - 100) else (res, year) := by
  rw [centuryLoop]

theorem centuryLoop_closed (n : Nat) : ∀ res year : Int, 0 ≤ year → year.toNat = n →
    centuryLoop res year = (res + 5 * (year / 100), year % 100) := by
  induction n using Nat.strong_induction_on with
  | _ n ih =>
    intro res year h0 hn
    rw [centuryLoop_unfold]
    by_cases h : 100 ≤ year
    · rw [if_pos h, ih (year - 100).toNat (by omega) (res + 5) (year - 100) (by omega) rfl]
      refine Prod.ext ?_ ?_ <;> dsimp only <;> omega
    · rw [if_neg h]
      refine Prod.ext ?_ ?_ <;> dsimp only <;> omega

theorem monthLoop_unfold (mon y t1 t2 : Int) :
    monthLoop mon y t1 t2 =
      if t1 < mon then monthLoop mon y (t1 + 1) (t2 + getNumberOfDays t1 y) else t2 := by
  rw [monthLoop]

theorem monthLoop_closed (mon y : Int) (n : Nat) : ∀ t1 t2 : Int, (mon - t1).toNat = n →
    monthLoop mon y t1 t2 =
      t2 + ((List.range n).map (fun i : Nat => getNumberOfDays (t1 + i) y)).sum := by
  induction n with
  | zero =>
    intro t1 t2 h
    rw [monthLoop_unfold, if_neg (by omega)]
    simp
  | succ n ih =>
    intro t1 t2 h
    rw [monthLoop_unfold, if_pos (by omega), ih (t1 + 1) _ (by omega)]
    rw [List.range_succ_eq_map, List.map_cons, List.sum_cons, List.map_map]
    have : ((fun i : Nat => getNumberOfDays (t1 + (i : Int)) y) ∘ Nat.succ)
        = fun i : Nat => getNumberOfDays (t1 + 1 + (i : Int)) y := by
      funext i
      simp only [Function.comp, Nat.succ_eq_add_one, Nat.cast_add, Nat.cast_one]
      congr 1
      omega
    rw [this]
    simp only [Nat.cast_zero, add_zero]
    omega

theorem monthLoop_nonneg (mon y : Int) (hm : mon ≤ 12) (n : Nat) : ∀ t1 t2 : Int,
    (mon - t1).toNat = n → 1 ≤ t1 → 0 ≤ t2 → 0 ≤ monthLoop mon y t1 t2 := by
  induction n with
  | zero =>
    intro t1 t2 h h1 h2
    rw [monthLoop_unfold, if_neg (by omega)]
    exact h2
  | succ n ih =>
    intro t1 t2 h h1 h2
    rw [monthLoop_unfold, if_pos (by omega)]
    have := getNumberOfDays_ge t1 y ⟨h1, by omega⟩
    exact ih (t1 + 1) _ (by omega) (by omega) (by omega)

/-- In exact arithmetic `getDayNumber` is the closed form of the
specification for every year from 1600 on, every month and every day. -/
theorem getDayNumber_eq_spec (day month year : Int) (hy : 1600 ≤ year) :
    getDayNumber day month year = dayNumberSpec day month year := by
  have hc := centuryLoop_closed (year - 1600).toNat 0 (year - 1600) (by omega) rfl
  have hl := monthLoop_closed month year (month - 1).toNat 1 0 rfl
  have hd : (year - 1600).tdiv 100 = (year - 1600) / 100 :=
    Int.tdiv_eq_ediv (by omega) (by decide)
  have hr : (year - 1600).tmod 100 = (year - 1600) % 100 :=
    Int.tmod_eq_emod (by omega) (by decide)
  unfold getDayNumber dayNumberSpec
  simp only [hc, hl, hd, hr, zero_add]
  have e1 : ∀ i : Nat, ((1 : Int) + (i : Int)) = (i : Int) + 1 := fun i => by omega
  simp only [e1]
  have e2 : ∀ a b : Int, a * 2 + b = 2 * a + b := fun a b => by omega
  rw [e2]
  have e3 : ∀ a b : Int, a + b = b + a := fun a b => by omega
  rw [e3 (List.sum _) day]
  split_ifs <;> simp

/-! ## Day number on 32-bit integers -/

/-- A value in the range of `int` is stored unchanged. -/
theorem wrap32_id (n : Int) (h1 : -2147483648 ≤ n) (h2 : n ≤ 2147483647) : wrap32 n = n := by
  unfold wrap32
  omega

/-- The truncating remainder by 7 lies in -6..6. -/
theorem tmod7_abs (n : Int) : -6 ≤ n.tmod 7 ∧ n.tmod 7 ≤ 6 := by
  by_cases h : 0 ≤ n
  · rw [tmod7_of_nonneg n h]
    omega
  · have h1 := Int.tmod_add_tdiv n 7
    have h2 := Int.neg_tdiv n 7
    rw [Int.tdiv_eq_ediv (show 0 ≤ -n by omega) (by decide)] at h2
    omega

/-- The century loop does not overflow for a year offset in the range of
`int`. -/
theorem centuryLoop32_eq (n : Nat) : ∀ res year : Int, 0 ≤ year → year ≤ 2147483647 →
    year.toNat = n → 0 ≤ res → res + 5 * (year / 100) ≤ 2147483647 →
    centuryLoop32 res year = centuryLoop res year := by
  induction n using Nat.strong_induction_on with
  | _ n ih =>
    intro res year h0 hy hn hr hb
    rw [centuryLoop32, centuryLoop_unfold]
    by_cases h : 100 ≤ year
    · rw [if_pos h, if_pos h, wrap32_id (res + 5) (by omega) (by omega),
        wrap32_id (year - 100) (by omega) (by omega)]
      exact ih (year - 100).toNat (by omega) (res + 5) (year - 100) (by omega) (by omega) rfl
        (by omega) (by omega)
    · rw [if_neg h, if_neg h]

/-- The month loop does not overflow for a month up to 12. -/
theorem monthLoop32_eq (mon y : Int) (hm : mon ≤ 12) (n : Nat) : ∀ t1 t2 : Int,
    (mon - t1).toNat = n → 1 ≤ t1 → 0 ≤ t2 → t2 ≤ 31 * (t1 - 1) →
    monthLoop32 mon y t1 t2 = monthLoop mon y t1 t2 := by
  induction n with
  | zero =>
    intro t1 t2 h h1 h2 h3
    rw [monthLoop32, monthLoop_unfold, if_neg (by omega), if_neg (by omega)]
  | succ n ih =>
    intro t1 t2 h h1 h2 h3
    have hg := getNumberOfDays_ge t1 y ⟨h1, by omega⟩
    rw [monthLoop32, monthLoop_unfold, if_pos (by omega), if_pos (by omega),
      wrap32_id _ (by omega) (by omega)]
    exact ih (t1 + 1) _ (by omega) (by omega) (by omega) (by omega)

/-- The month loop started at `t1 = 1`, `t2 = 0` sums the days of the months
before `mon`. -/
theorem monthLoop_eq_daysBefore (mon y : Int) : monthLoop mon y 1 0 = daysBefore mon y := by
  rw [monthLoop_closed mon y (mon - 1).toNat 1 0 rfl, zero_add]
  unfold daysBefore
  congr 1
  apply List.map_congr_left
  intro i _
  congr 1
  omega

/-- For a year from 1600 on, a month in 1..12 and a day of the year in the
range of `int` no step of `getDayNumber32` overflows: it returns the exact
value `getDayNumber`. -/
theorem getDayNumber32_exact (day mon year : Int) (hy : 1600 ≤ year ∧ year ≤ 2147483647)
    (hm : 1 ≤ mon ∧ mon ≤ 12)
    (hd : -2147483648 ≤ daysBefore mon year + day ∧ daysBefore mon year + day ≤ 2147483647) :
    getDayNumber32 day mon year = getDayNumber day mon year := by
  have e0 : wrap32 (year - 1600) = year - 1600 := wrap32_id _ (by omega) (by omega)
  have ec : centuryLoop32 0 (year - 1600) = centuryLoop 0 (year - 1600) :=
    centuryLoop32_eq _ 0 (year - 1600) (by omega) (by omega) rfl (by omega) (by omega)
  have hc := centuryLoop_closed (year - 1600).toNat 0 (year - 1600) (by omega) rfl
  have em : monthLoop32 mon year 1 0 = monthLoop mon year 1 0 :=
    monthLoop32_eq mon year hm.2 _ 1 0 rfl (by omega) (by omega) (by omega)
  unfold getDayNumber32 getDayNumber
  simp only [e0, ec, hc, em, zero_add]
  rw [monthLoop_eq_daysBefore]
  have hY : 0 ≤ (year - 1600) % 100 ∧ (year - 1600) % 100 ≤ 99 := by omega
  generalize (year - 1600) % 100 = Y at hY ⊢
  generalize 5 * ((year - 1600) / 100) = A
  generalize daysBefore mon year + day = D at hd ⊢
  have w1 : wrap32 (Y - 1) = Y - 1 := wrap32_id _ (by omega) (by omega)
  simp only [w1]
  have hQ : 0 ≤ (Y - 1).tdiv 4 ∧ (Y - 1).tdiv 4 ≤ 24 := by
    by_cases h0 : Y = 0
    · subst h0
      decide
    · rw [Int.tdiv_eq_ediv (show 0 ≤ Y - 1 by omega) (by decide)]
      omega
  generalize (Y - 1).tdiv 4 = Q at hQ ⊢
  have w2 : wrap32 (Q * 2) = Q * 2 := wrap32_id _ (by omega) (by omega)
  have w3 : wrap32 (Y - 1 - Q) = Y - 1 - Q := wrap32_id _ (by omega) (by omega)
  have w4 : wrap32 (Q * 2 + (Y - 1 - Q)) = Q * 2 + (Y - 1 - Q) :=
    wrap32_id _ (by omega) (by omega)
  simp only [w2, w3, w4]
  have hT := tmod7_abs (Q * 2 + (Y - 1 - Q))
  generalize (Q * 2 + (Y - 1 - Q)).tmod 7 = T at hT ⊢
  have hA := tmod7_abs A
  generalize A.tmod 7 = a at hA ⊢
  have w5 : wrap32 (a + T) = a + T := wrap32_id _ (by omega) (by omega)
  have w6 : wrap32 D = D := wrap32_id _ hd.1 hd.2
  simp only [w5, w6]
  have hr := tmod7_abs (a + T)
  generalize (a + T).tmod 7 = r at hr ⊢
  have hs := tmod7_abs D
  generalize D.tmod 7 = e at hs ⊢
  have w7 : wrap32 (r + e) = r + e := wrap32_id _ (by omega) (by omega)
  simp only [w7]
  have hq := tmod7_abs (r + e)
  generalize (r + e).tmod 7 = q at hq ⊢
  have w8 : wrap32 (q + 1) = q + 1 := wrap32_id _ (by omega) (by omega)
  simp only [w8]

/-- Within a year the days before a month are between 0 and 341. -/
theorem daysBefore_range (month year : Int) (hm : 1 ≤ month ∧ month ≤ 12) :
    0 ≤ daysBefore month year ∧ daysBefore month year ≤ 341 := by
  have h0 := monthLoop_nonneg month year hm.2 (month - 1).toNat 1 0 rfl (by decide) (by decide)
  rw [monthLoop_eq_daysBefore] at h0
  refine ⟨h0, ?_⟩
  obtain ⟨h1, h12⟩ := hm
  have hmon : month = 1 ∨ month = 2 ∨ month = 3 ∨ month = 4 ∨ month = 5 ∨ month = 6 ∨
      month = 7 ∨ month = 8 ∨ month = 9 ∨ month = 10 ∨ month = 11 ∨ month = 12 := by omega
  have hf := getNumberOfDays_ge 2 year (by decide)
  rcases hmon with h | h | h | h | h | h | h | h | h | h | h | h <;> subst h <;>
    simp [daysBefore, List.range_succ, getNumberOfDays] <;> split_ifs <;> omega

/-- Counterexample to C8 as worded: for day 2147483647 of February 2000 the
sum `t2 + day` at line 118 leaves the range of `int`; the 32-bit computation
returns 5 and the closed form gives 2. -/
theorem getDayNumber32_day_overflow :
    getDayNumber32 2147483647 2 2000 = 5 ∧ dayNumberSpec 2147483647 2 2000 = 2 := by
  refine ⟨?_, ?_⟩
  · simp [getDayNumber32, centuryLoop32, monthLoop32, wrap32, getNumberOfDays, check_leapYear]
    decide
  · simp [dayNumberSpec, getNumberOfDays, check_leapYear]
    decide

/-- Claim C8 as amended: for every year from 1600 to 2147483647, every month
in 1..12 and every day whose day of the year `daysBefore month year + day`
is in the range of `int` (every day from 1 to 31 is), the loops of
`getDayNumber32` end and its result is the closed form of the specification,
computed with truncating division and remainder. -/
theorem getDayNumber32_eq_spec (day month year : Int)
    (hy : 1600 ≤ year ∧ year ≤ 2147483647) (hm : 1 ≤ month ∧ month ≤ 12)
    (hd : -2147483648 ≤ daysBefore month year + day ∧
      daysBefore month year + day ≤ 2147483647) :
    getDayNumber32 day month year = dayNumberSpec day month year := by
  rw [getDayNumber32_exact day month year hy hm hd]
  exact getDayNumber_eq_spec day month year hy.1

/-- Instance of the amended C8 at 29 February 2000, a Tuesday. -/
theorem getDayNumber32_eq_spec_witness :
    getDayNumber32 29 2 2000 = dayNumberSpec 29 2 2000 ∧ dayNumberSpec 29 2 2000 = 2 :=
  ⟨getDayNumber32_eq_spec 29 2 2000 (by decide) (by decide) (by decide), by
    simp [dayNumberSpec, getNumberOfDays, check_leapYear]
    decide⟩

/-- From 1601 on the day number of a valid date is a weekday index. -/
theorem getDayNumber_range (day mon year : Int) (hy : 1601 ≤ year)
    (hm : 1 ≤ mon ∧ mon ≤ 12) (hd : 1 ≤ day) :
    0 ≤ getDayNumber day mon year ∧ getDayNumber day mon year ≤ 6 := by
  have hc := centuryLoop_closed (year - 1600).toNat 0 (year - 1600) (by omega) rfl
  have hs := monthLoop_nonneg mon year hm.2 (mon - 1).toNat 1 0 rfl (by decide) (by decide)
  unfold getDayNumber
  simp only [hc, zero_add]
  generalize monthLoop mon year 1 0 = S at hs
  have ha : (5 * ((year - 1600) / 100)).tmod 7 = (5 * ((year - 1600) / 100)) % 7 :=
    tmod7_of_nonneg _ (by omega)
  have hD : (S + day).tmod 7 = (S + day) % 7 := tmod7_of_nonneg _ (by omega)
  rw [ha, hD]
  have hT : -1 ≤ ((year - 1600) % 100 - 1).tdiv 4 * 2 +
        ((year - 1600) % 100 - 1 - ((year - 1600) % 100 - 1).tdiv 4) ∧
      (1 ≤ (year - 1600) % 100 → 0 ≤ ((year - 1600) % 100 - 1).tdiv 4 * 2 +
        ((year - 1600) % 100 - 1 - ((year - 1600) % 100 - 1).tdiv 4)) := by
    by_cases h0 : (year - 1600) % 100 = 0
    · rw [h0]
      decide
    · have e1 : ((year - 1600) % 100 - 1).tdiv 4 = ((year - 1600) % 100 - 1) / 4 :=
        Int.tdiv_eq_ediv (by omega) (by decide)
      rw [e1]
      omega
  generalize ((year - 1600) % 100 - 1).tdiv 4 * 2 +
        ((year - 1600) % 100 - 1 - ((year - 1600) % 100 - 1).tdiv 4) = T at hT
  have b0 := tmod7_bounds T hT.1
  have b1 := tmod7_bounds (5 * ((year - 1600) / 100) % 7 + T.tmod 7) (by omega)
  have b2 := tmod7_bounds ((5 * ((year - 1600) / 100) % 7 + T.tmod 7).tmod 7 + (S + day) % 7)
    (by omega)
  have b3 := tmod7_bounds
    (((5 * ((year - 1600) / 100) % 7 + T.tmod 7).tmod 7 + (S + day) % 7).tmod 7 + 1) (by omega)
  by_cases h2 : 2000 < year
  · simp only [h2, if_true]
    omega
  · simp only [h2, if_false]
    have hA : (year - 1600) % 100 = 0 → 1 ≤ 5 * ((year - 1600) / 100) % 7 := by omega
    have b4 := tmod7_bounds
      (((5 * ((year - 1600) / 100) % 7 + T.tmod 7).tmod 7 + (S + day) % 7).tmod 7) (by omega)
    omega

theorem getDayNumber_sep_1600 : getDayNumber 1 9 1600 = -1 := by
  simp [getDayNumber, centuryLoop, monthLoop, getNumberOfDays, check_leapYear]
  decide

theorem getDayNumber_feb_2000 : getDayNumber 1 2 2000 = 2 := by
  simp [getDayNumber, centuryLoop, monthLoop, getNumberOfDays, check_leapYear]
  decide

/-- Claim C2, evaluated on the code: for 7 January 1600, a valid date,
`getDayNumber` returns -1, outside 0..6, and `getDay` answers with the error
text of `getName`. -/
theorem getDayNumber_jan7_1600 :
    getDayNumber 7 1 1600 = -1 ∧
    getDay 7 1 1600 = "Error in getName() module.Invalid argument passed" := by
  have h : getDayNumber 7 1 1600 = -1 := by
    simp [getDayNumber, centuryLoop, monthLoop]
    decide
  refine ⟨h, ?_⟩
  simp [getDay, h, getNumberOfDays]
  decide

/-! ## Note store -/

theorem checkNoteScan_spec (dd mm : Int) (recs : List Remainder) : ∀ w : World,
    (checkNoteScan dd mm recs w).2.file = w.file ∧
    (checkNoteScan dd mm recs w).2.out = w.out ∧
    ((checkNoteScan dd mm recs w).1 = 1 ↔ ∃ r ∈ recs, r.dd = dd ∧ r.mm = mm) ∧
    ((checkNoteScan dd mm recs w).1 = 0 ↔ ¬ ∃ r ∈ recs, r.dd = dd ∧ r.mm = mm) := by
  induction recs with
  | nil => intro w; simp [checkNoteScan]
  | cons r rest ih =>
    intro w
    unfold checkNoteScan
    by_cases h : r.dd = dd ∧ r.mm = mm
    · simp [h]
    · have hb : (r.dd == dd && r.mm == mm) = false := by
        simpa [Bool.and_eq_true] using h
      have := ih { w with R := r }
      simp only [hb, Bool.false_eq_true, if_false, List.mem_cons, exists_eq_or_imp, h, false_or]
      exact this

theorem checkNote_ok (w : World) (s : List Remainder) (hs : w.file = some s) (dd mm : Int) :
    checkNote dd mm w = .ok (checkNoteScan dd mm s w) := by
  simp [checkNote, hs]

/-- Claim C9: over a store `s` that can be opened, `checkNote dd mm` ends
normally, returns 1 exactly when some record of `s` has both `dd` and `mm`
equal to the arguments and 0 exactly when none has, prints nothing, and leaves
the store as it was. -/
theorem checkNote_exists (w : World) (s : List Remainder) (dd mm : Int)
    (hs : w.file = some s) :
    ∃ (r : Int) (w' : World), checkNote dd mm w = .ok (r, w') ∧
      w'.file = some s ∧ w'.out = w.out ∧
      (r = 1 ↔ ∃ n ∈ s, n.dd = dd ∧ n.mm = mm) ∧
      (r = 0 ↔ ¬ ∃ n ∈ s, n.dd = dd ∧ n.mm = mm) := by
  have h := checkNoteScan_spec dd mm s w
  refine ⟨(checkNoteScan dd mm s w).1, (checkNoteScan dd mm s w).2,
    checkNote_ok w s hs dd mm, ?_, h.2.1, h.2.2.1, h.2.2.2⟩
  rw [h.1, hs]

/-- Witness of C9 on a store holding a note for (5, 4) and one for (5, 3). -/
theorem checkNote_exists_witness :
    ∃ (r : Int) (w' : World),
      checkNote 5 3 ⟨some [⟨5, 4, []⟩, ⟨5, 3, []⟩], ⟨0, 0, []⟩, []⟩ = .ok (r, w') ∧
      w'.file = some [⟨5, 4, []⟩, ⟨5, 3, []⟩] ∧ w'.out = [] ∧
      (r = 1 ↔ ∃ n ∈ [(⟨5, 4, []⟩ : Remainder), ⟨5, 3, []⟩], n.dd = 5 ∧ n.mm = 3) ∧
      (r = 0 ↔ ¬ ∃ n ∈ [(⟨5, 4, []⟩ : Remainder), ⟨5, 3, []⟩], n.dd = 5 ∧ n.mm = 3) :=
  checkNote_exists ⟨some [⟨5, 4, []⟩, ⟨5, 3, []⟩], ⟨0, 0, []⟩, []⟩ _ 5 3 rfl

theorem cstr_storeText (text note : List Char) (h0 : text ≠ []) (hn : NUL ∉ text) :
    cstr (storeText text note) = text := by
  unfold cstr storeText
  rw [if_neg h0, List.append_assoc, List.takeWhile_append_of_pos]
  · simp [List.takeWhile]
  · intro c hc
    have : c ≠ NUL := fun e => hn (e ▸ hc)
    simpa using this

theorem AddNote_success (env : AddNoteEnv) (w : World) (ho : env.opens = true)
    (hw : env.written = true) (hl : env.text.length ≤ 50) :
    AddNote env w = .error (.closedStream,
      { file := some (w.file.getD [] ++ [⟨env.dd, env.mm, storeText env.text w.R.note⟩]),
        R := ⟨env.dd, env.mm, storeText env.text w.R.note⟩,
        out := w.out ++ [.lit "Enter the date(DD/MM): ",
          .lit "Enter the Note(50 character max): ", .lit "Note is saved sucessfully\n",
          .lit "Press any key............"] }) := by
  have hl' : ¬ 50 < env.text.length := by omega
  unfold AddNote
  simp only [hl', if_false, ho, hw, Bool.not_true, Bool.false_eq_true, if_true, World.print,
    List.append_assoc, List.singleton_append, List.cons_append, List.nil_append]

theorem print_mk (f : Option (List Remainder)) (R : Remainder) (out : List Chunk) (c : Chunk) :
    (World.mk f R out).print c = ⟨f, R, out ++ [c]⟩ := rfl

theorem checkNoteScan_eq (dd mm : Int) (recs : List Remainder) :
    ∀ (f : Option (List Remainder)) (R : Remainder) (out : List Chunk),
    checkNoteScan dd mm recs ⟨f, R, out⟩ =
      ((if hasNote recs dd mm then 1 else 0), ⟨f, noteBuf dd mm recs R, out⟩) := by
  induction recs with
  | nil => intro f R out; simp [checkNoteScan, hasNote, noteBuf]
  | cons r rest ih =>
    intro f R out
    unfold checkNoteScan noteBuf
    by_cases h : (r.dd == dd && r.mm == mm) = true
    · simp [hasNote, h]
    · rw [Bool.not_eq_true] at h
      simp only [h, Bool.false_eq_true, if_false, ih, hasNote, List.any_cons, Bool.false_or]

theorem checkNote_eq (s : List Remainder) (R : Remainder) (out : List Chunk) (dd mm : Int) :
    checkNote dd mm ⟨some s, R, out⟩ =
      .ok ((if hasNote s dd mm then 1 else 0), ⟨some s, noteBuf dd mm s R, out⟩) := by
  simp [checkNote, checkNoteScan_eq]

theorem dayLoop_eq (s : List Remainder) (mon nod x1 : Int) : ∀ (n : Nat) (d cnt x : Int)
    (R : Remainder) (out : List Chunk), (nod + 1 - d).toNat = n →
    dayLoop mon nod x1 d cnt x ⟨some s, R, out⟩ =
      .ok ⟨some s, gridBuf s mon n d R, out ++ gridRest s mon n d cnt⟩ := by
  intro n
  induction n with
  | zero =>
    intro d cnt x R out hn
    rw [dayLoop, if_neg (by omega)]
    simp [gridRest, gridBuf]
  | succ n ih =>
    intro d cnt x R out hn
    rw [dayLoop, if_pos (by omega)]
    have hn1 : (nod + 1 - (d + 1)).toNat = n := by omega
    by_cases hb : cnt.tmod 7 = 0
    · by_cases hn' : hasNote s d mon = true
      · simp only [hb, beq_self_eq_true, if_true, checkNote_eq, print_mk, hn']
        rw [ih _ _ _ _ _ hn1]
        simp [gridRest, gridBuf, hb, hn']
      · rw [Bool.not_eq_true] at hn'
        simp only [hb, beq_self_eq_true, if_true, checkNote_eq, print_mk, hn',
          Bool.false_eq_true, if_false, Int.reduceBEq]
        rw [ih _ _ _ _ _ hn1]
        simp [gridRest, gridBuf, hb, hn']
    · have hb' : (cnt.tmod 7 == 0) = false := by simpa using hb
      by_cases hn' : hasNote s d mon = true
      · simp only [hb', Bool.false_eq_true, if_false, checkNote_eq, print_mk, hn', if_true,
          beq_self_eq_true]
        rw [ih _ _ _ _ _ hn1]
        simp [gridRest, gridBuf, hb, hn']
      · rw [Bool.not_eq_true] at hn'
        simp only [hb', Bool.false_eq_true, if_false, checkNote_eq, print_mk, hn',
          Int.reduceBEq]
        rw [ih _ _ _ _ _ hn1]
        simp [gridRest, gridBuf, hb, hn']

theorem print_date_eq (mm yy : Int) (f : Option (List Remainder)) (R : Remainder)
    (out : List Chunk) :
    print_date mm yy ⟨f, R, out⟩ = ⟨f, R, out ++ dateChunks mm yy⟩ := by
  unfold dateChunks print_date
  split <;> simp [print_mk]

theorem firstColumn_some (day x : Int) (h : 0 ≤ day ∧ day ≤ 6) :
    firstColumn day x = some (x + 4 * day, day + 1) := by
  obtain ⟨h0, h6⟩ := h
  have : day = 0 ∨ day = 1 ∨ day = 2 ∨ day = 3 ∨ day = 4 ∨ day = 5 ∨ day = 6 := by omega
  rcases this with h | h | h | h | h | h | h <;> subst h <;> simp [firstColumn]

/-- The whole output of `printMonth` for a valid month and year whose first
day has a weekday index in 0..6, over a store that can be opened. -/
theorem printMonth_grid (mon year x y : Int) (s : List Remainder) (R : Remainder)
    (out : List Chunk) (hm : 1 ≤ mon ∧ mon ≤ 12) (hy : 1600 ≤ year)
    (hw : 0 ≤ getDayNumber 1 mon year ∧ getDayNumber 1 mon year ≤ 6) :
    printMonth mon year x y ⟨some s, R, out⟩ = .ok ⟨some s,
      gridBuf s mon (getNumberOfDays mon year - 1).toNat 2 (noteBuf 1 mon s R),
      out ++ dateChunks mon year ++ [.lit "S   M   T   W   T   F   S   \n"] ++
        (if hasNote s 1 mon then [Chunk.lit "*"] else []) ++ [.day2 1] ++
        gridRest s mon (getNumberOfDays mon year - 1).toNat 2 (getDayNumber 1 mon year + 1) ++
        [.lit "\nPress 'n' to Next, Press 'p' to Previous and 'q' to Quit\n",
         .lit "Red Background indicates the NOTE, Press 's' to see note: \n"]⟩ := by
  have hm1 : (1 ≤ mon && mon ≤ 12) = true := by simp [hm.1, hm.2]
  have hy1 : decide (1600 ≤ year) = true := by simp [hy]
  have hn1 : (getNumberOfDays mon year + 1 - 2).toNat = (getNumberOfDays mon year - 1).toNat := by
    congr 1; omega
  unfold printMonth
  by_cases hn : hasNote s 1 mon = true
  · simp only [hm1, hy1, Bool.not_true, Bool.false_eq_true, if_false, print_date_eq, print_mk,
      firstColumn_some _ _ hw, checkNote_eq, hn, if_true, beq_self_eq_true]
    rw [dayLoop_eq s mon _ x _ _ _ _ _ _ hn1]
    simp [print_mk]
  · rw [Bool.not_eq_true] at hn
    simp only [hm1, hy1, Bool.not_true, Bool.false_eq_true, if_false, print_date_eq, print_mk,
      firstColumn_some _ _ hw, checkNote_eq, hn, Int.reduceBEq]
    rw [dayLoop_eq s mon _ x _ _ _ _ _ _ hn1]
    simp [print_mk]

theorem dayCells_append (a b : List Chunk) : dayCells (a ++ b) = dayCells a ++ dayCells b := by
  induction a with
  | nil => rfl
  | cons c cs ih => cases c <;> simp [dayCells, ih]

theorem dayCells_dateChunks (mm yy : Int) : dayCells (dateChunks mm yy) = [] := by
  unfold dateChunks print_date
  split <;> simp [World.print, dayCells]

theorem dayCells_gridRest (s : List Remainder) (mon : Int) : ∀ (n : Nat) (d cnt : Int),
    dayCells (gridRest s mon n d cnt) = (List.range n).map (fun i : Nat => d + (i : Int)) := by
  intro n
  induction n with
  | zero => intro d cnt; simp [gridRest, dayCells]
  | succ n ih =>
    intro d cnt
    rw [gridRest, List.range_succ_eq_map, List.map_cons, List.map_map]
    simp only [dayCells_append, ih]
    have e : dayCells (if cnt.tmod 7 == 0 then [Chunk.lit "\n"] else []) = [] := by
      split <;> simp [dayCells]
    have e2 : dayCells (if hasNote s d mon then [Chunk.lit "*"] else []) = [] := by
      split <;> simp [dayCells]
    rw [e, e2]
    simp only [dayCells, List.nil_append, List.singleton_append, Nat.cast_zero, add_zero,
      List.cons.injEq, true_and]
    apply List.map_congr_left
    intro i _
    simp only [Function.comp, Nat.succ_eq_add_one, Nat.cast_add, Nat.cast_one]
    omega

/-- For a valid month and year whose first day has a weekday index in 0..6,
over a store that can be opened, the day cells `printMonth` prints are the days
1, 2, ..., `getNumberOfDays mon year`, each once and in this order. -/
theorem printMonth_dayCells (mon year x y : Int) (s : List Remainder) (R : Remainder)
    (out : List Chunk) (hm : 1 ≤ mon ∧ mon ≤ 12) (hy : 1600 ≤ year)
    (hw : 0 ≤ getDayNumber 1 mon year ∧ getDayNumber 1 mon year ≤ 6) :
    ∃ (R' : Remainder) (new : List Chunk),
      printMonth mon year x y ⟨some s, R, out⟩ = .ok ⟨some s, R', out ++ new⟩ ∧
      dayCells new =
        (List.range (getNumberOfDays mon year).toNat).map (fun i : Nat => (i : Int) + 1) := by
  refine ⟨gridBuf s mon (getNumberOfDays mon year - 1).toNat 2 (noteBuf 1 mon s R),
    dateChunks mon year ++ [.lit "S   M   T   W   T   F   S   \n"] ++
        (if hasNote s 1 mon then [Chunk.lit "*"] else []) ++ [.day2 1] ++
        gridRest s mon (getNumberOfDays mon year - 1).toNat 2 (getDayNumber 1 mon year + 1) ++
        [.lit "\nPress 'n' to Next, Press 'p' to Previous and 'q' to Quit\n",
         .lit "Red Background indicates the NOTE, Press 's' to see note: \n"], ?_, ?_⟩
  · rw [printMonth_grid mon year x y s R out hm hy hw]
    simp only [List.append_assoc]
  · have hn := getNumberOfDays_ge mon year hm
    have e2 : dayCells (if hasNote s 1 mon then [Chunk.lit "*"] else []) = [] := by
      split <;> simp [dayCells]
    have e3 : (getNumberOfDays mon year).toNat = (getNumberOfDays mon year - 1).toNat + 1 := by
      omega
    simp only [dayCells_append, dayCells_dateChunks, dayCells_gridRest, e2, dayCells,
      List.nil_append, List.append_nil, List.singleton_append]
    rw [e3, List.range_succ_eq_map, List.map_cons, List.map_map]
    simp only [Nat.cast_zero, zero_add, List.cons.injEq, true_and]
    apply List.map_congr_left
    intro i _
    simp only [Function.comp, Nat.succ_eq_add_one, Nat.cast_add, Nat.cast_one]
    omega

theorem printMonth_feb_2000 :
    printMonth 2 2000 20 5 ⟨some [], ⟨0, 0, []⟩, []⟩ = .ok ⟨some [], ⟨0, 0, []⟩, feb2000⟩ := by
  rw [printMonth_grid 2 2000 20 5 [] _ _ (by decide) (by decide)
    (by rw [getDayNumber_feb_2000]; decide), getDayNumber_feb_2000]
  refine congrArg Except.ok ?_
  decide

/-- Claim C3, evaluated on the code: for September 1600, a valid month and
year with 30 days, `printMonth` prints the two headings and then the diagnostic
of its `default` branch, and no day cell, whatever the store and the origin. -/
theorem printMonth_sep_1600 (x y : Int) (w : World) :
    getNumberOfDays 9 1600 = 30 ∧
    printMonth 9 1600 x y w = .ok { w with out := w.out ++
      [.lit "---------------------------\n", .lit "September", .year 1600,
       .lit "\n---------------------------\n", .lit "S   M   T   W   T   F   S   \n",
       .lit "INVALID DATA FROM THE getOddNumber()MODULE"] } ∧
    dayCells [.lit "---------------------------\n", .lit "September", .year 1600,
       .lit "\n---------------------------\n", .lit "S   M   T   W   T   F   S   \n",
       .lit "INVALID DATA FROM THE getOddNumber()MODULE"] = [] := by
  refine ⟨by decide, ?_, rfl⟩
  simp [printMonth, getDayNumber_sep_1600, firstColumn, print_date, World.print]

theorem cellColumn_header (mon year : Int) (hm : 1 ≤ mon ∧ mon ≤ 12) (pre rest : List Chunk)
    (hpre : pre = [] ∨ pre = [Chunk.lit "*"]) :
    cellColumn 1 (dateChunks mon year ++ [.lit "S   M   T   W   T   F   S   \n"] ++ pre ++
      .day2 1 :: rest) 0 = some pre.length := by
  obtain ⟨h1, h12⟩ := hm
  have hmon : mon = 1 ∨ mon = 2 ∨ mon = 3 ∨ mon = 4 ∨ mon = 5 ∨ mon = 6 ∨ mon = 7 ∨ mon = 8 ∨
      mon = 9 ∨ mon = 10 ∨ mon = 11 ∨ mon = 12 := by omega
  rcases hpre with hp | hp <;> subst hp <;>
    rcases hmon with h | h | h | h | h | h | h | h | h | h | h | h <;> subst h <;>
    simp [dateChunks, print_date, World.print, cellColumn, columnAfter, Chunk.render]

set_option maxRecDepth 100000 in
/-- Claim C4, evaluated on the code: for February 2000 over an empty store the
first day is a Tuesday (index 2) and the `switch` moves `x` by 8 columns, yet
no `printf` uses `x`: the cell of day 1 starts at column 0 of the line after
the weekday header, under `S`, not at column 8 under the first `T`; the cell
at column 8 is that of day 4. -/
theorem printMonth_feb_2000_day_one_column :
    getDayNumber 1 2 2000 = 2 ∧
    printMonth 2 2000 20 5 ⟨some [], ⟨0, 0, []⟩, []⟩ = .ok ⟨some [], ⟨0, 0, []⟩, feb2000⟩ ∧
    cellColumn 1 feb2000 0 = some 0 ∧
    cellColumn 1 feb2000 0 ≠ some (4 * (getDayNumber 1 2 2000).toNat) ∧
    cellColumn 4 feb2000 0 = some 8 ∧
    renderAll feb2000 = "---------------------------\nFebruary , 2000\n---------------------------\nS   M   T   W   T   F   S   \n0102 03 04 05 \n06 07 08 09 10 11 12 \n13 14 15 16 17 18 19 \n20 21 22 23 24 25 26 \n27 28 29 \nPress 'n' to Next, Press 'p' to Previous and 'q' to Quit\nRed Background indicates the NOTE, Press 's' to see note: \n" ∧
    firstColumn (getDayNumber 1 2 2000) 20 = some (28, 3) := by
  refine ⟨getDayNumber_feb_2000, printMonth_feb_2000, by decide, ?_, by decide, by decide, ?_⟩
  · rw [getDayNumber_feb_2000]
    decide
  · rw [getDayNumber_feb_2000]
    rfl

/-- The column of day 1 in general: for a valid month and year whose first day
has a weekday index in 0..6, over a store that can be opened, `printMonth`
prints the date heading, the weekday header line, a `*` when day 1 has a note,
and then the cell of day 1; so that cell starts at column 0 of the line after
the header, or at column 1 behind the `*`, whatever the weekday of day 1 is. -/
theorem printMonth_day_one_column (mon year x y : Int) (s : List Remainder) (R : Remainder)
    (out : List Chunk) (hm : 1 ≤ mon ∧ mon ≤ 12) (hy : 1600 ≤ year)
    (hw : 0 ≤ getDayNumber 1 mon year ∧ getDayNumber 1 mon year ≤ 6) :
    ∃ (R' : Remainder) (rest : List Chunk),
      printMonth mon year x y ⟨some s, R, out⟩ = .ok ⟨some s, R',
        out ++ (dateChunks mon year ++ [.lit "S   M   T   W   T   F   S   \n"] ++
          (if hasNote s 1 mon then [Chunk.lit "*"] else []) ++ .day2 1 :: rest)⟩ ∧
      cellColumn 1 (dateChunks mon year ++ [.lit "S   M   T   W   T   F   S   \n"] ++
          (if hasNote s 1 mon then [Chunk.lit "*"] else []) ++ .day2 1 :: rest) 0
        = some (if hasNote s 1 mon then 1 else 0) := by
  refine ⟨gridBuf s mon (getNumberOfDays mon year - 1).toNat 2 (noteBuf 1 mon s R),
    gridRest s mon (getNumberOfDays mon year - 1).toNat 2 (getDayNumber 1 mon year + 1) ++
      [.lit "\nPress 'n' to Next, Press 'p' to Previous and 'q' to Quit\n",
       .lit "Red Background indicates the NOTE, Press 's' to see note: \n"], ?_, ?_⟩
  · rw [printMonth_grid mon year x y s R out hm hy hw]
    simp only [List.append_assoc, List.singleton_append, List.cons_append, List.nil_append]
  · by_cases hn : hasNote s 1 mon = true
    · simp only [hn, if_true]
      exact cellColumn_header mon year hm _ _ (Or.inr rfl)
    · rw [Bool.not_eq_true] at hn
      simp only [hn, Bool.false_eq_true, if_false]
      exact cellColumn_header mon year hm _ _ (Or.inl rfl)

/-- The column of day 1 for February 2000 over a store with a note for
1 February: column 1, behind the `*`. -/
theorem printMonth_day_one_column_feb_2000 :
    ∃ (R' : Remainder) (rest : List Chunk),
      printMonth 2 2000 20 5 ⟨some [⟨1, 2, []⟩], ⟨0, 0, []⟩, []⟩ = .ok ⟨some [⟨1, 2, []⟩], R',
        [] ++ (dateChunks 2 2000 ++ [.lit "S   M   T   W   T   F   S   \n"] ++
          (if hasNote [⟨1, 2, []⟩] 1 2 then [Chunk.lit "*"] else []) ++ .day2 1 :: rest)⟩ ∧
      cellColumn 1 (dateChunks 2 2000 ++ [.lit "S   M   T   W   T   F   S   \n"] ++
          (if hasNote [⟨1, 2, []⟩] 1 2 then [Chunk.lit "*"] else []) ++ .day2 1 :: rest) 0
        = some (if hasNote [⟨1, 2, []⟩] 1 2 then 1 else 0) :=
  printMonth_day_one_column 2 2000 20 5 [⟨1, 2, []⟩] ⟨0, 0, []⟩ [] (by decide) (by decide)
    (by rw [getDayNumber_feb_2000]; decide)


/-! ## Listing the notes of a month -/

theorem showNoteScan_eq (mm : Int) (s : List Remainder) : ∀ (k : Nat) (isFound : Int)
    (f : Option (List Remainder)) (R : Remainder) (out : List Chunk),
    showNoteScan mm s (k : Int) isFound ⟨f, R, out⟩ =
      ((if s.any (fun r => r.mm == mm) then 1 else isFound),
        ⟨f, lastRead s R, out ++ ((s.filter (fun r => r.mm == mm)).enumFrom k).map
          (fun p => Chunk.noteLine ((p.1 : Int) + 1) p.2.dd (cstr p.2.note))⟩) := by
  induction s with
  | nil => intro k isFound f R out; simp [showNoteScan, lastRead]
  | cons r rest ih =>
    intro k isFound f R out
    have hl : lastRead (r :: rest) R = lastRead rest r := by
      cases rest <;> simp [lastRead, List.getLast?]
    unfold showNoteScan
    by_cases h : (r.mm == mm) = true
    · have := ih (k + 1) 1 f r (out ++ [.noteLine ((k : Int) + 1) r.dd (cstr r.note)])
      simp only [Nat.cast_add, Nat.cast_one] at this
      simp only [h, if_true, print_mk, this, hl, List.any_cons, Bool.true_or, List.filter_cons,
        List.enumFrom_cons, List.map_cons, List.append_assoc, List.singleton_append]
      simp
    · rw [Bool.not_eq_true] at h
      simp only [h, Bool.false_eq_true, if_false, ih, hl, List.any_cons, Bool.false_or,
        List.filter_cons]

theorem showNote_eq (mm : Int) (s : List Remainder) (R : Remainder) (out : List Chunk) :
    showNote mm ⟨some s, R, out⟩ = .ok ⟨some s, lastRead s R,
      out ++ listing mm s ++
        (if s.any (fun r => r.mm == mm) then [] else [.lit "This Month contains no note\n"]) ++
        [.lit "Press any key to back.......\n"]⟩ := by
  have h := showNoteScan_eq mm s 0 0 (some s) R out
  simp only [Nat.cast_zero] at h
  unfold showNote
  simp only [h, listing, List.enum]
  by_cases ha : s.any (fun r => r.mm == mm) = true
  · simp [ha, print_mk]
  · rw [Bool.not_eq_true] at ha
    simp [ha, print_mk]

theorem listing_append_match (mm : Int) (s : List Remainder) (r : Remainder) (h : r.mm = mm) :
    listing mm (s ++ [r]) = listing mm s ++
      [.noteLine (((s.filter (fun n => n.mm == mm)).length : Int) + 1) r.dd (cstr r.note)] := by
  have hb : (r.mm == mm) = true := by simp [h]
  simp [listing, List.filter_append, List.enum_append, hb, List.enumFrom_cons]

/-- Claim C11: over a store `s` that can be opened, `showNote mm` prints exactly
the listing of month `mm` (the records of `s` whose month is `mm`, each once, in
storage order, numbered 1, 2, ..., with day and text), then "This Month contains
no note" exactly when no record of `s` has month `mm`, then its closing line; a
record of month `mm` added at the end of the store becomes the last entry of the
listing; so after the note (5, 3, "pay rent") is appended, the listing of month 3
ends with the entry of day 5 and text "pay rent". -/
theorem showNote_lists_month (mm : Int) (s : List Remainder) (R : Remainder)
    (out : List Chunk) :
    (∃ R', showNote mm ⟨some s, R, out⟩ = .ok ⟨some s, R',
        out ++ listing mm s ++
          (if ∃ r ∈ s, r.mm = mm then [] else [.lit "This Month contains no note\n"]) ++
          [.lit "Press any key to back.......\n"]⟩) ∧
    (∀ r : Remainder, r.mm = mm → listing mm (s ++ [r]) = listing mm s ++
        [.noteLine (((s.filter (fun n => n.mm == mm)).length : Int) + 1) r.dd
          (cstr r.note)]) ∧
    (∃ w' : World,
      AddNote ⟨true, 5, 3, "pay rent".toList, true⟩ ⟨some s, R, out⟩
        = .error (.closedStream, w') ∧
      ∃ (R' : Remainder) (k : Int), showNote 3 w' = .ok ⟨some (s ++ [w'.R]), R',
        w'.out ++ listing 3 s ++
          [.noteLine k 5 "pay rent".toList, .lit "Press any key to back.......\n"]⟩) := by
  refine ⟨⟨lastRead s R, ?_⟩, fun r h => listing_append_match mm s r h, ?_⟩
  · rw [showNote_eq]
    by_cases ha : ∃ r ∈ s, r.mm = mm
    · have hb : s.any (fun r => r.mm == mm) = true := by simpa using ha
      simp [ha, hb]
    · have hb : s.any (fun r => r.mm == mm) = false := by simpa using ha
      simp only [ha, hb, if_false, Bool.false_eq_true]
  · let r5 : Remainder := ⟨5, 3, storeText "pay rent".toList R.note⟩
    let W : World := ⟨some (s ++ [r5]), r5,
      out ++ [.lit "Enter the date(DD/MM): ", .lit "Enter the Note(50 character max): ",
        .lit "Note is saved sucessfully\n", .lit "Press any key............"]⟩
    have hA : AddNote ⟨true, 5, 3, "pay rent".toList, true⟩ ⟨some s, R, out⟩
        = .error (.closedStream, W) := by
      rw [AddNote_success ⟨true, 5, 3, "pay rent".toList, true⟩ ⟨some s, R, out⟩ rfl rfl
        (by decide)]
      rfl
    refine ⟨W, hA, lastRead (s ++ [r5]) r5,
      ((s.filter (fun n => n.mm == 3)).length : Int) + 1, ?_⟩
    show showNote 3 ⟨some (s ++ [r5]), r5, _⟩ = _
    rw [showNote_eq, listing_append_match 3 s r5 rfl]
    have hc : cstr r5.note = "pay rent".toList :=
      cstr_storeText "pay rent".toList R.note (by decide) (by decide)
    have hd : r5.dd = 5 := rfl
    rw [hc, hd]
    simp

/-! ## A store that cannot be opened -/

/-- Claim C12, evaluated on the code: when `note.dat` cannot be opened,
`checkNote` and `showNote` print their message and then go on to `fread` on the
null stream, where the run stops; `checkNote` does not return 0 and `showNote`
does not print that the month has no note. -/
theorem read_of_unopened_store (dd mm : Int) (R : Remainder) (out : List Chunk) :
    checkNote dd mm ⟨none, R, out⟩ =
      .error (.nullStream, ⟨none, R, out ++ [.lit "Error in Opening the file"]⟩) ∧
    showNote mm ⟨none, R, out⟩ =
      .error (.nullStream, ⟨none, R, out ++ [.lit "Error in opening the file"]⟩) ∧
    (∀ (r : Int) (w' : World), checkNote dd mm ⟨none, R, out⟩ ≠ .ok (r, w')) ∧
    (∀ w' : World, showNote mm ⟨none, R, out⟩ ≠ .ok w') := by
  refine ⟨rfl, rfl, ?_, ?_⟩
  · intro r w' h
    simp [checkNote] at h
  · intro w' h
    simp [showNote] at h

/-! ## Rows of the month grid -/

theorem gridRest_eq_flatMap (s : List Remainder) (mon : Int) : ∀ (n : Nat) (d cnt : Int),
    1 ≤ cnt → cnt ≤ 7 →
    gridRest s mon n d cnt = (List.range n).flatMap (fun i : Nat =>
      (if (cnt + (i : Int)) % 7 = 0 then [Chunk.lit "\n"] else []) ++
        (if hasNote s (d + (i : Int)) mon then [Chunk.lit "*"] else []) ++
        [Chunk.day2sp (d + (i : Int))]) := by
  intro n
  induction n with
  | zero => intro d cnt _ _; simp [gridRest]
  | succ n ih =>
    intro d cnt h1 h7
    have hc : cnt.tmod 7 = cnt % 7 := tmod7_of_nonneg cnt (by omega)
    rw [gridRest, List.range_succ_eq_map, List.flatMap_cons, List.flatMap_map]
    have hlo : 1 ≤ (if (cnt.tmod 7 == 0) = true then 0 else cnt) + 1 := by
      split <;> omega
    have hhi : (if (cnt.tmod 7 == 0) = true then 0 else cnt) + 1 ≤ 7 := by
      split
      · omega
      · rename_i h
        simp only [beq_iff_eq, hc] at h
        omega
    rw [ih (d + 1) _ hlo hhi]
    simp only [hc, Nat.cast_zero, add_zero, beq_iff_eq]
    congr 1
    apply List.flatMap_congr
    intro i _
    have e1 : d + 1 + (i : Int) = d + ((i + 1 : Nat) : Int) := by push_cast; omega
    have e2 : ((if cnt % 7 = 0 then 0 else cnt) + 1 + (i : Int)) % 7 = 0 ↔
        (cnt + ((i + 1 : Nat) : Int)) % 7 = 0 := by
      push_cast
      split <;> omega
    simp only [Function.comp, Nat.succ_eq_add_one, e1, e2]

theorem rowsOfSeven_eq (s : List Remainder) (mon w : Int) (n : Nat) (hw : 0 ≤ w ∧ w ≤ 6) :
    rowsOfSeven s mon w n = gridRest s mon n 2 (w + 1) := by
  rw [gridRest_eq_flatMap s mon n 2 (w + 1) (by omega) (by omega)]
  unfold rowsOfSeven
  apply List.flatMap_congr
  intro i _
  have e1 : (2 : Int) + (i : Int) = (i : Int) + 2 := by omega
  have e2 : (w + 1 + (i : Int)) % 7 = 0 ↔ (w + ((i : Int) + 2) - 1) % 7 = 0 := by omega
  simp only [e1, e2]

theorem cellLine_gridRest (s : List Remainder) (mon : Int) (tail : List Chunk) (d : Int) :
    ∀ (n : Nat) (d0 cnt : Int) (ln : Nat), 1 ≤ cnt → cnt ≤ 7 → d0 ≤ d → d < d0 + n →
    cellLine d (gridRest s mon n d0 cnt ++ tail) ln =
      some (ln + ((cnt + (d - d0)) / 7).toNat) := by
  intro n
  induction n with
  | zero => intro d0 cnt ln _ _ h1 h2; simp at h2; omega
  | succ n ih =>
    intro d0 cnt ln h1 h7 hd0 hdn
    have hc : cnt.tmod 7 = cnt % 7 := tmod7_of_nonneg cnt (by omega)
    rw [gridRest]
    by_cases hb : cnt % 7 = 0
    · have hcnt : cnt = 7 := by omega
      subst hcnt
      by_cases hd : d = d0
      · subst hd
        by_cases hn : hasNote s d mon = true <;>
          simp [hn, cellLine, Chunk.newlines]
      · have := ih (d0 + 1) 1 (ln + 1) (by omega) (by omega) (by omega)
          (by push_cast at hdn; omega)
        have hne : ¬ d0 = d := fun e => hd e.symm
        have e : ln + 1 + ((1 + (d - (d0 + 1))) / 7).toNat = ln + ((7 + (d - d0)) / 7).toNat := by
          omega
        by_cases hn : hasNote s d0 mon = true <;>
          simp [hn, cellLine, Chunk.newlines, hne, this, e]
    · have hlt : cnt < 7 := by omega
      have hb' : ¬ cnt.tmod 7 = 0 := by rw [hc]; exact hb
      by_cases hd : d = d0
      · subst hd
        have e : ((cnt + (d - d)) / 7).toNat = 0 := by omega
        by_cases hn : hasNote s d mon = true <;>
          simp [hn, hb', cellLine, Chunk.newlines, e] <;> omega
      · have := ih (d0 + 1) (cnt + 1) ln (by omega) (by omega) (by omega)
          (by push_cast at hdn; omega)
        have hne : ¬ d0 = d := fun e => hd e.symm
        have e : ln + ((cnt + 1 + (d - (d0 + 1))) / 7).toNat = ln + ((cnt + (d - d0)) / 7).toNat := by
          omega
        by_cases hn : hasNote s d0 mon = true <;>
          simp [hn, hb', cellLine, Chunk.newlines, hne, this, e]

theorem dateChunks_shape (mon year : Int) (hm : 1 ≤ mon ∧ mon ≤ 12) :
    ∃ name : String, name.data.count '\n' = 0 ∧
      dateChunks mon year = [.lit "---------------------------\n", .lit name, .year year,
        .lit "\n---------------------------\n"] := by
  obtain ⟨h1, h12⟩ := hm
  have hmon : mon = 1 ∨ mon = 2 ∨ mon = 3 ∨ mon = 4 ∨ mon = 5 ∨ mon = 6 ∨ mon = 7 ∨ mon = 8 ∨
      mon = 9 ∨ mon = 10 ∨ mon = 11 ∨ mon = 12 := by omega
  rcases hmon with h | h | h | h | h | h | h | h | h | h | h | h <;> subst h
  · exact ⟨"January", by decide, rfl⟩
  · exact ⟨"February", by decide, rfl⟩
  · exact ⟨"March", by decide, rfl⟩
  · exact ⟨"April", by decide, rfl⟩
  · exact ⟨"May", by decide, rfl⟩
  · exact ⟨"June", by decide, rfl⟩
  · exact ⟨"July", by decide, rfl⟩
  · exact ⟨"August", by decide, rfl⟩
  · exact ⟨"September", by decide, rfl⟩
  · exact ⟨"October", by decide, rfl⟩
  · exact ⟨"November", by decide, rfl⟩
  · exact ⟨"December", by decide, rfl⟩

theorem cellLine_headings (mon year : Int) (hm : 1 ≤ mon ∧ mon ≤ 12) (pre rest : List Chunk)
    (hpre : pre = [] ∨ pre = [Chunk.lit "*"]) (d : Int) :
    cellLine d (dateChunks mon year ++ [.lit "S   M   T   W   T   F   S   \n"] ++ pre ++
      .day2 1 :: rest) 0 = if d = 1 then some 4 else cellLine d rest 4 := by
  obtain ⟨name, hname, hshape⟩ := dateChunks_shape mon year hm
  have c1 : ("---------------------------\n" : String).data.count '\n' = 1 := by decide
  have c2 : ("\n---------------------------\n" : String).data.count '\n' = 2 := by decide
  have c3 : ("S   M   T   W   T   F   S   \n" : String).data.count '\n' = 1 := by decide
  have c4 : ("*" : String).data.count '\n' = 0 := by decide
  rw [hshape]
  by_cases hd : d = 1
  · subst hd
    rcases hpre with hp | hp <;> subst hp <;>
      simp [cellLine, Chunk.newlines, hname, c1, c2, c3, c4]
  · have hd' : ¬ 1 = d := fun e => hd e.symm
    rcases hpre with hp | hp <;> subst hp <;>
      simp [cellLine, Chunk.newlines, hname, c1, c2, c3, c4, hd, hd']

theorem cellLine_monthGrid (s : List Remainder) (mon year : Int) (hm : 1 ≤ mon ∧ mon ≤ 12)
    (hw : 0 ≤ getDayNumber 1 mon year ∧ getDayNumber 1 mon year ≤ 6) (d : Int)
    (h1 : 1 ≤ d) (hn : d ≤ getNumberOfDays mon year) :
    cellLine d (monthGrid s mon year) 0 =
      some (4 + ((getDayNumber 1 mon year + d - 1) / 7).toNat) := by
  have hpre : (if hasNote s 1 mon then [Chunk.lit "*"] else []) = [] ∨
      (if hasNote s 1 mon then [Chunk.lit "*"] else []) = [Chunk.lit "*"] := by
    split <;> simp
  have e0 : monthGrid s mon year =
      dateChunks mon year ++ [.lit "S   M   T   W   T   F   S   \n"] ++
        (if hasNote s 1 mon then [Chunk.lit "*"] else []) ++ .day2 1 ::
        (gridRest s mon (getNumberOfDays mon year - 1).toNat 2 (getDayNumber 1 mon year + 1) ++
          [.lit "\nPress 'n' to Next, Press 'p' to Previous and 'q' to Quit\n",
           .lit "Red Background indicates the NOTE, Press 's' to see note: \n"]) := by
    unfold monthGrid
    rw [rowsOfSeven_eq s mon _ _ hw]
    simp only [List.append_assoc, List.singleton_append, List.cons_append, List.nil_append]
  rw [e0, cellLine_headings mon year hm _ _ hpre d]
  by_cases hd : d = 1
  · subst hd
    have e : ((getDayNumber 1 mon year + 1 - 1) / 7).toNat = 0 := by omega
    rw [if_pos rfl, e]
  · rw [if_neg hd, cellLine_gridRest s mon _ d _ 2 _ 4 (by omega) (by omega) (by omega)
      (by omega)]
    congr 2
    omega

theorem dayCells_monthGrid (s : List Remainder) (mon year : Int) (hm : 1 ≤ mon ∧ mon ≤ 12)
    (hw : 0 ≤ getDayNumber 1 mon year ∧ getDayNumber 1 mon year ≤ 6) :
    dayCells (monthGrid s mon year) =
      (List.range (getNumberOfDays mon year).toNat).map (fun i : Nat => (i : Int) + 1) := by
  have hn := getNumberOfDays_ge mon year hm
  have e2 : dayCells (if hasNote s 1 mon then [Chunk.lit "*"] else []) = [] := by
    split <;> simp [dayCells]
  have e3 : (getNumberOfDays mon year).toNat = (getNumberOfDays mon year - 1).toNat + 1 := by
    omega
  unfold monthGrid
  rw [rowsOfSeven_eq s mon _ _ hw]
  simp only [dayCells_append, dayCells_dateChunks, dayCells_gridRest, e2, dayCells,
    List.nil_append, List.append_nil, List.singleton_append]
  rw [e3, List.range_succ_eq_map, List.map_cons, List.map_map]
  simp only [Nat.cast_zero, zero_add, List.cons.injEq, true_and]
  apply List.map_congr_left
  intro i _
  simp only [Function.comp, Nat.succ_eq_add_one, Nat.cast_add, Nat.cast_one]
  omega

theorem rowCount_first (s : List Remainder) (mon year : Int) (hm : 1 ≤ mon ∧ mon ≤ 12)
    (hw : 0 ≤ getDayNumber 1 mon year ∧ getDayNumber 1 mon year ≤ 6) :
    rowCount s mon year 4 =
      (min (7 - getDayNumber 1 mon year) (getNumberOfDays mon year)).toNat := by
  have hn := getNumberOfDays_ge mon year hm
  have hset : (Finset.Icc 1 (getNumberOfDays mon year)).filter
      (fun d => cellLine d (monthGrid s mon year) 0 = some 4) =
      Finset.Icc 1 (min (7 - getDayNumber 1 mon year) (getNumberOfDays mon year)) := by
    ext d
    simp only [Finset.mem_filter, Finset.mem_Icc]
    constructor
    · rintro ⟨⟨h1, h2⟩, h⟩
      rw [cellLine_monthGrid s mon year hm hw d h1 h2] at h
      have h' := Option.some.inj h
      omega
    · rintro ⟨h1, h2⟩
      have h3 : d ≤ getNumberOfDays mon year := by omega
      refine ⟨⟨h1, h3⟩, ?_⟩
      rw [cellLine_monthGrid s mon year hm hw d h1 h3]
      congr 1
      omega
  unfold rowCount
  rw [hset, Int.card_Icc]
  congr 1
  omega

theorem rowCount_le (s : List Remainder) (mon year : Int) (hm : 1 ≤ mon ∧ mon ≤ 12)
    (hw : 0 ≤ getDayNumber 1 mon year ∧ getDayNumber 1 mon year ≤ 6) (L : Nat) :
    rowCount s mon year L ≤ 7 := by
  have hsub : (Finset.Icc 1 (getNumberOfDays mon year)).filter
      (fun d => cellLine d (monthGrid s mon year) 0 = some L) ⊆
      Finset.Icc (7 * ((L : Int) - 4) - getDayNumber 1 mon year + 1)
        (7 * ((L : Int) - 4) - getDayNumber 1 mon year + 7) := by
    intro d
    simp only [Finset.mem_filter, Finset.mem_Icc]
    rintro ⟨⟨h1, h2⟩, h⟩
    rw [cellLine_monthGrid s mon year hm hw d h1 h2] at h
    have h' := Option.some.inj h
    omega
  unfold rowCount
  refine le_trans (Finset.card_le_card hsub) ?_
  rw [Int.card_Icc]
  omega

theorem rowCount_full (s : List Remainder) (mon year : Int) (hm : 1 ≤ mon ∧ mon ≤ 12)
    (hw : 0 ≤ getDayNumber 1 mon year ∧ getDayNumber 1 mon year ≤ 6) (L : Nat) (hL : 4 < L)
    (hnext : 0 < rowCount s mon year (L + 1)) :
    rowCount s mon year L = 7 := by
  obtain ⟨d', hd'⟩ := Finset.card_pos.mp hnext
  simp only [Finset.mem_filter, Finset.mem_Icc] at hd'
  obtain ⟨⟨h1', h2'⟩, h'⟩ := hd'
  rw [cellLine_monthGrid s mon year hm hw d' h1' h2'] at h'
  have h'' := Option.some.inj h'
  have hset : (Finset.Icc 1 (getNumberOfDays mon year)).filter
      (fun d => cellLine d (monthGrid s mon year) 0 = some L) =
      Finset.Icc (7 * ((L : Int) - 4) - getDayNumber 1 mon year + 1)
        (7 * ((L : Int) - 4) - getDayNumber 1 mon year + 7) := by
    ext d
    simp only [Finset.mem_filter, Finset.mem_Icc]
    constructor
    · rintro ⟨⟨h1, h2⟩, h⟩
      rw [cellLine_monthGrid s mon year hm hw d h1 h2] at h
      have h3 := Option.some.inj h
      omega
    · rintro ⟨h1, h2⟩
      have h3 : 1 ≤ d := by omega
      have h4 : d ≤ getNumberOfDays mon year := by omega
      refine ⟨⟨h3, h4⟩, ?_⟩
      rw [cellLine_monthGrid s mon year hm hw d h3 h4]
      congr 1
      omega
  unfold rowCount
  rw [hset, Int.card_Icc]
  omega

/-- Rows of seven over a store that can be opened: for a valid month and year
whose first day has a weekday index `w` in 0..6, `printMonth` prints the month grid
built by the rows-of-seven rule, whatever the origin `x`, `y`: the day cells are
the days 1..n in order; the cell of day `d` is on line `4 + (w + d - 1) div 7` of
the output, so day `d` (from 2 to n) starts a new line exactly when
`(w + d - 1) mod 7 = 0`; the first row holds `min (7 - w) n` cells, no row holds
more than 7, and every later row that is followed by another row holds 7. -/
theorem printMonth_rows_of_seven (mon year x y : Int) (s : List Remainder) (R : Remainder)
    (out : List Chunk) (hm : 1 ≤ mon ∧ mon ≤ 12) (hy : 1600 ≤ year)
    (hw : 0 ≤ getDayNumber 1 mon year ∧ getDayNumber 1 mon year ≤ 6) :
    printMonth mon year x y ⟨some s, R, out⟩ = .ok ⟨some s,
      gridBuf s mon (getNumberOfDays mon year - 1).toNat 2 (noteBuf 1 mon s R),
      out ++ monthGrid s mon year⟩ ∧
    (∀ x' y' : Int, printMonth mon year x' y' ⟨some s, R, out⟩ =
      printMonth mon year x y ⟨some s, R, out⟩) ∧
    dayCells (monthGrid s mon year) =
      (List.range (getNumberOfDays mon year).toNat).map (fun i : Nat => (i : Int) + 1) ∧
    (∀ d : Int, 1 ≤ d → d ≤ getNumberOfDays mon year →
      cellLine d (monthGrid s mon year) 0 =
        some (4 + ((getDayNumber 1 mon year + d - 1) / 7).toNat)) ∧
    (∀ d : Int, 2 ≤ d → d ≤ getNumberOfDays mon year →
      (cellLine d (monthGrid s mon year) 0 ≠ cellLine (d - 1) (monthGrid s mon year) 0 ↔
        (getDayNumber 1 mon year + d - 1) % 7 = 0)) ∧
    rowCount s mon year 4 =
      (min (7 - getDayNumber 1 mon year) (getNumberOfDays mon year)).toNat ∧
    (∀ L : Nat, rowCount s mon year L ≤ 7) ∧
    (∀ L : Nat, 4 < L → 0 < rowCount s mon year (L + 1) → rowCount s mon year L = 7) := by
  have hgrid : ∀ x' y' : Int, printMonth mon year x' y' ⟨some s, R, out⟩ = .ok ⟨some s,
      gridBuf s mon (getNumberOfDays mon year - 1).toNat 2 (noteBuf 1 mon s R),
      out ++ monthGrid s mon year⟩ := by
    intro x' y'
    rw [printMonth_grid mon year x' y' s R out hm hy hw]
    unfold monthGrid
    rw [rowsOfSeven_eq s mon _ _ hw]
    simp only [List.append_assoc]
  refine ⟨hgrid x y, fun x' y' => by rw [hgrid x' y', hgrid x y],
    dayCells_monthGrid s mon year hm hw,
    fun d h1 h2 => cellLine_monthGrid s mon year hm hw d h1 h2, ?_,
    rowCount_first s mon year hm hw, rowCount_le s mon year hm hw,
    fun L hL hnext => rowCount_full s mon year hm hw L hL hnext⟩
  intro d h2 hn
  rw [cellLine_monthGrid s mon year hm hw d (by omega) hn,
    cellLine_monthGrid s mon year hm hw (d - 1) (by omega) (by omega)]
  constructor
  · intro h
    have h' : 4 + ((getDayNumber 1 mon year + d - 1) / 7).toNat ≠
        4 + ((getDayNumber 1 mon year + (d - 1) - 1) / 7).toNat := fun e => h (by rw [e])
    omega
  · intro h e
    have h' := Option.some.inj e
    omega

/-- Rows of seven for February 2000 over an empty store, printed from the
origin (20, 5): first-day index 2, 29 days, rows of 5, 7, 7, 7 and 3 cells. -/
theorem printMonth_rows_of_seven_feb_2000 :
    printMonth 2 2000 20 5 ⟨some [], ⟨0, 0, []⟩, []⟩ = .ok ⟨some [],
      gridBuf [] 2 (getNumberOfDays 2 2000 - 1).toNat 2 (noteBuf 1 2 [] ⟨0, 0, []⟩),
      [] ++ monthGrid [] 2 2000⟩ ∧
    (∀ x' y' : Int, printMonth 2 2000 x' y' ⟨some [], ⟨0, 0, []⟩, []⟩ =
      printMonth 2 2000 20 5 ⟨some [], ⟨0, 0, []⟩, []⟩) ∧
    dayCells (monthGrid [] 2 2000) =
      (List.range (getNumberOfDays 2 2000).toNat).map (fun i : Nat => (i : Int) + 1) ∧
    (∀ d : Int, 1 ≤ d → d ≤ getNumberOfDays 2 2000 →
      cellLine d (monthGrid [] 2 2000) 0 =
        some (4 + ((getDayNumber 1 2 2000 + d - 1) / 7).toNat)) ∧
    (∀ d : Int, 2 ≤ d → d ≤ getNumberOfDays 2 2000 →
      (cellLine d (monthGrid [] 2 2000) 0 ≠ cellLine (d - 1) (monthGrid [] 2 2000) 0 ↔
        (getDayNumber 1 2 2000 + d - 1) % 7 = 0)) ∧
    rowCount [] 2 2000 4 = (min (7 - getDayNumber 1 2 2000) (getNumberOfDays 2 2000)).toNat ∧
    (∀ L : Nat, rowCount [] 2 2000 L ≤ 7) ∧
    (∀ L : Nat, 4 < L → 0 < rowCount [] 2 2000 (L + 1) → rowCount [] 2 2000 L = 7) :=
  printMonth_rows_of_seven 2 2000 20 5 [] ⟨0, 0, []⟩ [] (by decide) (by decide)
    (by rw [getDayNumber_feb_2000]; decide)

/-- Claim C13, evaluated on the code: for February 2000 (first-day index 2,
29 days), when `note.dat` cannot be opened, `printMonth` prints the two
headings and the message of `checkNote` and stops at `fread` on the null
stream, whatever the origin `x`, `y`: no day cell and no line break of the grid
is printed, so the output has no row of the grid at all. -/
theorem printMonth_feb_2000_unopened_store (x y : Int) (R : Remainder) (out : List Chunk) :
    getDayNumber 1 2 2000 = 2 ∧ getNumberOfDays 2 2000 = 29 ∧
    printMonth 2 2000 x y ⟨none, R, out⟩ = .error (.nullStream, ⟨none, R, out ++
      [.lit "---------------------------\n", .lit "February", .year 2000,
       .lit "\n---------------------------\n", .lit "S   M   T   W   T   F   S   \n",
       .lit "Error in Opening the file"]⟩) ∧
    dayCells [.lit "---------------------------\n", .lit "February", .year 2000,
       .lit "\n---------------------------\n", .lit "S   M   T   W   T   F   S   \n",
       .lit "Error in Opening the file"] = [] ∧
    (∀ d : Int, cellLine d [.lit "---------------------------\n", .lit "February", .year 2000,
       .lit "\n---------------------------\n", .lit "S   M   T   W   T   F   S   \n",
       .lit "Error in Opening the file"] 0 = none) ∧
    (∀ w' : World, printMonth 2 2000 x y ⟨none, R, out⟩ ≠ .ok w') := by
  have h : printMonth 2 2000 x y ⟨none, R, out⟩ = .error (.nullStream, ⟨none, R, out ++
      [.lit "---------------------------\n", .lit "February", .year 2000,
       .lit "\n---------------------------\n", .lit "S   M   T   W   T   F   S   \n",
       .lit "Error in Opening the file"]⟩) := by
    simp [printMonth, getDayNumber_feb_2000, firstColumn, print_date, World.print, checkNote]
  refine ⟨getDayNumber_feb_2000, by decide, h, rfl, ?_, ?_⟩
  · intro d
    simp [cellLine]
  · intro w' hw
    rw [h] at hw
    exact absurd hw (by simp)

/-! ## Weekdays of the Gregorian calendar -/

theorem check_leapYear_eq_gregorian (y : Int) :
    (check_leapYear y == 1) = gregorianLeap y := by
  have h400 : y.tmod 400 = 0 ↔ y % 400 = 0 := by
    rw [tmod_eq_zero_iff_dvd, Int.dvd_iff_emod_eq_zero]
  have h100 : y.tmod 100 = 0 ↔ y % 100 = 0 := by
    rw [tmod_eq_zero_iff_dvd, Int.dvd_iff_emod_eq_zero]
  have h4 : y.tmod 4 = 0 ↔ y % 4 = 0 := by
    rw [tmod_eq_zero_iff_dvd, Int.dvd_iff_emod_eq_zero]
  unfold check_leapYear gregorianLeap
  by_cases a : y % 400 = 0 <;> by_cases b : y % 100 = 0 <;> by_cases c : y % 4 = 0 <;>
    simp [h400, h100, h4, a, b, c]

theorem getNumberOfDays_eq_gregorian (m y : Int) (hm : 1 ≤ m ∧ m ≤ 12) :
    getNumberOfDays m y = gregorianMonthLength m y := by
  obtain ⟨h1, h12⟩ := hm
  have hmon : m = 1 ∨ m = 2 ∨ m = 3 ∨ m = 4 ∨ m = 5 ∨ m = 6 ∨ m = 7 ∨ m = 8 ∨
      m = 9 ∨ m = 10 ∨ m = 11 ∨ m = 12 := by omega
  rcases hmon with h | h | h | h | h | h | h | h | h | h | h | h <;> subst h <;>
    simp [getNumberOfDays, gregorianMonthLength, check_leapYear_eq_gregorian]

theorem yearSum_closed (N : Nat) :
    ((List.range N).map (fun i : Nat => daysInYear (1601 + (i : Int)))).sum =
      365 * (N : Int) + (N : Int) / 4 - (N : Int) / 100 + (N : Int) / 400 := by
  induction N with
  | zero => simp
  | succ N ih =>
    rw [List.range_succ, List.map_append, List.sum_append, ih]
    simp only [List.map_cons, List.map_nil, List.sum_cons, List.sum_nil, add_zero]
    unfold daysInYear gregorianLeap
    push_cast
    by_cases a : (1601 + (N : Int)) % 400 = 0 <;> by_cases b : (1601 + (N : Int)) % 100 = 0 <;>
      by_cases c : (1601 + (N : Int)) % 4 = 0 <;> simp [a, b, c] <;> omega

theorem monthLoop_eq_gregorian (mon y : Int) (hm : mon ≤ 12) :
    monthLoop mon y 1 0 =
      ((List.range (mon - 1).toNat).map
        (fun i : Nat => gregorianMonthLength ((i : Int) + 1) y)).sum := by
  rw [monthLoop_closed mon y (mon - 1).toNat 1 0 rfl, zero_add]
  congr 1
  apply List.map_congr_left
  intro i hi
  have hi' := List.mem_range.mp hi
  have e : (1 : Int) + (i : Int) = (i : Int) + 1 := by omega
  rw [e]
  exact getNumberOfDays_eq_gregorian _ y ⟨by omega, by omega⟩

theorem tmod7_cases (n : Int) (h : -1 ≤ n) :
    (n = -1 ∧ n.tmod 7 = -1) ∨ (0 ≤ n ∧ n.tmod 7 = n % 7) := by
  by_cases h0 : 0 ≤ n
  · exact Or.inr ⟨h0, tmod7_of_nonneg n h0⟩
  · have : n = -1 := by omega
    subst this
    exact Or.inl ⟨rfl, by decide⟩

theorem nested_tmod7 (a T D k : Int) (ha0 : 0 ≤ a) (ha6 : a ≤ 6) (hT : -1 ≤ T)
    (hD0 : 0 ≤ D) (hD6 : D ≤ 6) (hk : k = 0 ∨ k = 1) (hbad : T = -1 → a = 0 → k = 1) :
    (((a + T.tmod 7).tmod 7 + D).tmod 7 + k).tmod 7 = (a + T + D + k) % 7 := by
  rcases tmod7_cases T hT with ⟨h0, e0⟩ | ⟨h0, e0⟩
  · rw [e0]
    subst h0
    rcases tmod7_cases (a + -1) (by omega) with ⟨h1, e1⟩ | ⟨h1, e1⟩
    · rw [e1]
      have hk1 : k = 1 := hbad rfl (by omega)
      subst hk1
      rcases tmod7_cases (-1 + D) (by omega) with ⟨h2, e2⟩ | ⟨h2, e2⟩
      · rw [e2]
        have e3 : ((-1 : Int) + 1).tmod 7 = 0 := by decide
        rw [e3]
        omega
      · rw [e2, tmod7_of_nonneg _ (by omega)]
        omega
    · rw [e1, tmod7_of_nonneg ((a + -1) % 7 + D) (by omega),
        tmod7_of_nonneg _ (by omega)]
      omega
  · rw [e0, tmod7_of_nonneg (a + T % 7) (by omega),
      tmod7_of_nonneg ((a + T % 7) % 7 + D) (by omega), tmod7_of_nonneg _ (by omega)]
    omega

theorem year_days_mod7 (year T : Int) (hy : 1601 ≤ year) (hy2 : year ≤ 2400)
    (hT0 : (year - 1600) % 100 = 0 → T = -1)
    (hT1 : 1 ≤ (year - 1600) % 100 →
      T = ((year - 1600) % 100 - 1) / 4 + ((year - 1600) % 100 - 1)) :
    (365 * (year - 1601) + (year - 1601) / 4 - (year - 1601) / 100 + (year - 1601) / 400) % 7 =
      (5 * ((year - 1600) / 100) + T + (if 2000 < year then 1 else 0)) % 7 := by
  have hcen : (year - 1600) / 100 = 0 ∨ (year - 1600) / 100 = 1 ∨ (year - 1600) / 100 = 2 ∨
      (year - 1600) / 100 = 3 ∨ (year - 1600) / 100 = 4 ∨ (year - 1600) / 100 = 5 ∨
      (year - 1600) / 100 = 6 ∨ (year - 1600) / 100 = 7 ∨ (year - 1600) / 100 = 8 := by omega
  have hrem : year - 1600 = 100 * ((year - 1600) / 100) + (year - 1600) % 100 := by omega
  by_cases h0 : (year - 1600) % 100 = 0
  · have hTv := hT0 h0
    subst hTv
    rw [h0] at hrem
    rcases hcen with h | h | h | h | h | h | h | h | h <;> rw [h] at hrem ⊢ <;>
      split <;> omega
  · have hTv := hT1 (by omega)
    subst hTv
    have hq : (year - 1601) / 4 =
        25 * ((year - 1600) / 100) + ((year - 1600) % 100 - 1) / 4 := by omega
    have hh : (year - 1601) / 100 = (year - 1600) / 100 := by omega
    have h4 : (year - 1601) / 400 = (year - 1600) / 100 / 4 := by omega
    have hN : year - 1601 = 100 * ((year - 1600) / 100) + ((year - 1600) % 100 - 1) := by
      omega
    have hk : (2000 < year) ↔ 4 ≤ (year - 1600) / 100 := by omega
    rw [hq, hh, h4, hN]
    simp only [hk]
    generalize (year - 1600) % 100 = y
    generalize (y - 1) / 4 = q
    rw [Int.emod_eq_emod_iff_emod_sub_eq_zero]
    rcases hcen with h | h | h | h | h | h | h | h | h <;> rw [h] <;> simp <;> omega

theorem getDayNumber_eq_days (day mon year S : Int) (hy : 1601 ≤ year) (hy2 : year ≤ 2400)
    (hS : 0 ≤ S) (hd : 1 ≤ day) (hloop : monthLoop mon year 1 0 = S) :
    getDayNumber day mon year =
      (365 * (year - 1601) + (year - 1601) / 4 - (year - 1601) / 100 + (year - 1601) / 400 +
        S + day) % 7 := by
  have hc := centuryLoop_closed (year - 1600).toNat 0 (year - 1600) (by omega) rfl
  unfold getDayNumber
  simp only [hc, zero_add, hloop]
  have ha : (5 * ((year - 1600) / 100)).tmod 7 = (5 * ((year - 1600) / 100)) % 7 :=
    tmod7_of_nonneg _ (by omega)
  have hD : (S + day).tmod 7 = (S + day) % 7 := tmod7_of_nonneg _ (by omega)
  rw [ha, hD]
  have hT : ((year - 1600) % 100 = 0 → ((year - 1600) % 100 - 1).tdiv 4 * 2 +
        ((year - 1600) % 100 - 1 - ((year - 1600) % 100 - 1).tdiv 4) = -1) ∧
      (1 ≤ (year - 1600) % 100 → ((year - 1600) % 100 - 1).tdiv 4 * 2 +
        ((year - 1600) % 100 - 1 - ((year - 1600) % 100 - 1).tdiv 4) =
          ((year - 1600) % 100 - 1) / 4 + ((year - 1600) % 100 - 1)) := by
    constructor
    · intro h0
      rw [h0]
      decide
    · intro h1
      have e1 : ((year - 1600) % 100 - 1).tdiv 4 = ((year - 1600) % 100 - 1) / 4 :=
        Int.tdiv_eq_ediv (by omega) (by decide)
      rw [e1]
      omega
  generalize ((year - 1600) % 100 - 1).tdiv 4 * 2 +
        ((year - 1600) % 100 - 1 - ((year - 1600) % 100 - 1).tdiv 4) = T at hT
  have hT1 : -1 ≤ T := by omega
  have hyear := year_days_mod7 year T hy hy2 hT.1 hT.2
  have hbad : T = -1 → 5 * ((year - 1600) / 100) % 7 = 0 → 2000 < year := by
    intro h1 h2
    omega
  by_cases h2 : 2000 < year
  · simp only [h2, if_true] at hyear ⊢
    rw [nested_tmod7 _ T _ 1 (by omega) (by omega) hT1 (by omega) (by omega) (Or.inr rfl)
      (fun _ _ => rfl)]
    omega
  · simp only [h2, if_false] at hyear ⊢
    have e := nested_tmod7 (5 * ((year - 1600) / 100) % 7) T ((S + day) % 7) 0 (by omega)
      (by omega) hT1 (by omega) (by omega) (Or.inl rfl) (fun h1 h3 => absurd (hbad h1 h3) h2)
    rw [add_zero] at e
    rw [e]
    omega

theorem getDayNumber_eq_trueWeekday (day mon year : Int) (hy : 1601 ≤ year ∧ year ≤ 2400)
    (hm : 1 ≤ mon ∧ mon ≤ 12) (hd : 1 ≤ day) :
    getDayNumber day mon year = trueWeekday day mon year := by
  have hS := monthLoop_nonneg mon year hm.2 (mon - 1).toNat 1 0 rfl (by decide) (by decide)
  have hN : (((year - 1601).toNat : Nat) : Int) = year - 1601 := by omega
  rw [getDayNumber_eq_days day mon year _ hy.1 hy.2 hS hd rfl]
  unfold trueWeekday daysSince1600
  rw [yearSum_closed, hN, ← monthLoop_eq_gregorian mon year hm.2]

theorem getDayNumber_jan_1601 : getDayNumber 1 1 1601 = 1 := by
  simp [getDayNumber, centuryLoop, monthLoop]
  decide

theorem getDayNumber_jan_2001 : getDayNumber 1 1 2001 = 1 := by
  simp [getDayNumber, centuryLoop, monthLoop]
  decide

/-- Claim C14: for every year from 1601 to 2400, every month 1..12 and every
day of that month, `getDayNumber` is the weekday of the date in the proleptic
Gregorian calendar, 0 for Sunday to 6 for Saturday, counted as the days elapsed
since Sunday 31 December 1600 modulo 7; 1 January 1601 and 1 January 2001 give 1
(Monday) and 1 February 2000 gives 2 (Tuesday). -/
theorem getDayNumber_true_weekday (day mon year : Int) (hy : 1601 ≤ year ∧ year ≤ 2400)
    (hm : 1 ≤ mon ∧ mon ≤ 12) (hd : 1 ≤ day ∧ day ≤ getNumberOfDays mon year) :
    getDayNumber day mon year = trueWeekday day mon year ∧
    (getDayNumber 1 1 1601 = 1 ∧ trueWeekday 1 1 1601 = 1) ∧
    (getDayNumber 1 2 2000 = 2 ∧ trueWeekday 1 2 2000 = 2) ∧
    (getDayNumber 1 1 2001 = 1 ∧ trueWeekday 1 1 2001 = 1) := by
  refine ⟨getDayNumber_eq_trueWeekday day mon year hy hm hd.1,
    ⟨getDayNumber_jan_1601, ?_⟩, ⟨getDayNumber_feb_2000, ?_⟩, ⟨getDayNumber_jan_2001, ?_⟩⟩
  · rw [← getDayNumber_eq_trueWeekday 1 1 1601 (by decide) (by decide) (by decide)]
    exact getDayNumber_jan_1601
  · rw [← getDayNumber_eq_trueWeekday 1 2 2000 (by decide) (by decide) (by decide)]
    exact getDayNumber_feb_2000
  · rw [← getDayNumber_eq_trueWeekday 1 1 2001 (by decide) (by decide) (by decide)]
    exact getDayNumber_jan_2001

/-- Witness of C14 at 30 October 2026, a Friday. -/
theorem getDayNumber_true_weekday_witness :
    getDayNumber 30 10 2026 = trueWeekday 30 10 2026 ∧
    (getDayNumber 1 1 1601 = 1 ∧ trueWeekday 1 1 1601 = 1) ∧
    (getDayNumber 1 2 2000 = 2 ∧ trueWeekday 1 2 2000 = 2) ∧
    (getDayNumber 1 1 2001 = 1 ∧ trueWeekday 1 1 2001 = 1) :=
  getDayNumber_true_weekday 30 10 2026 (by decide) (by decide) (by decide)

end Calendar
